import Mathlib

/-!
The collection pipeline of cluster-feature-gate-checker.

A shallow embedding of `checker/running_cluster.go` and of the single-file
variant `main.go`: pod classification, extraction of the `--feature-gates`
flag, parsing of its value, and aggregation into the component matrix.

Go strings are modelled as Lean `String`s (sequences of code points), Go
slices as `List`s, Go maps with string keys as association lists with
distinct keys, and a run-time panic as the `error` side of `Except Panic`.
-/

/-! ## Go runtime: panics, slice indexing, maps -/

/-- A Go run-time panic. The only one this program can raise is an index
expression evaluated outside the bounds of a slice. -/
inductive Panic where
  | indexOutOfRange (index length : Nat)
  deriving DecidableEq, Repr

/-- The index expression `xs[i]` read from a slice: the element, or the
run-time panic `index out of range [i] with length len(xs)`. -/
def sliceIndex {α : Type} (xs : List α) (i : Nat) : Except Panic α :=
  match xs.get? i with
  | some x => .ok x
  | none => .error (.indexOutOfRange i xs.length)

/-- The assignment `xs[i] = v` into a slice: the updated slice, or the
run-time panic when `i` is out of range. -/
def sliceAssign {α : Type} (xs : List α) (i : Nat) (v : α) : Except Panic (List α) :=
  if i < xs.length then .ok (xs.set i v) else .error (.indexOutOfRange i xs.length)

/-- A Go `map[string]V`: an association list whose keys are kept distinct by
`GoMap.set`. Ranging over the map visits the entries in list order, which is
one of the orders the Go runtime may choose. -/
abbrev GoMap (V : Type) := List (String × V)

namespace GoMap

/-- The two-valued lookup `v, ok := m[k]`, as an option. -/
def get? {V : Type} (m : GoMap V) (k : String) : Option V :=
  match m with
  | [] => none
  | (k', v) :: rest => if k' = k then some v else get? rest k

/-- The index expression `m[k]`: the stored value, or the zero value of the
element type when the key is absent. -/
def get {V : Type} (zero : V) (m : GoMap V) (k : String) : V :=
  (get? m k).getD zero

/-- The assignment `m[k] = v`: overwrites the entry of `k` when there is one,
adds an entry otherwise. -/
def set {V : Type} (m : GoMap V) (k : String) (v : V) : GoMap V :=
  match m with
  | [] => [(k, v)]
  | (k', v') :: rest => if k' = k then (k, v) :: rest else (k', v') :: set rest k v

/-- The keys of the map. -/
def keys {V : Type} (m : GoMap V) : List String := m.map Prod.fst

end GoMap

/-! ## Go standard library: package `strings` -/

namespace strings

/-- Whether `sub` occurs in the character sequence as a contiguous block. -/
def containsChars (sub : List Char) : List Char → Bool
  | [] => sub.isEmpty
  | c :: cs => sub.isPrefixOf (c :: cs) || containsChars sub cs

/-- Go `strings.Contains(s, substr)`: reports whether `substr` is within `s`. -/
def Contains (s substr : String) : Bool := containsChars substr.data s.data

/-- The scan of Go `strings.Split` for a non-empty separator: `skip` counts the
characters of a separator occurrence still to be passed over, `cur` is the
piece being read, reversed. Occurrences are found left to right and do not
overlap. -/
def splitChars (sep : List Char) : Nat → List Char → List Char → List (List Char)
  | _, [], cur => [cur.reverse]
  | skip + 1, _ :: cs, cur => splitChars sep skip cs cur
  | 0, c :: cs, cur =>
    if sep.isPrefixOf (c :: cs) then cur.reverse :: splitChars sep (sep.length - 1) cs []
    else splitChars sep 0 cs (c :: cur)

/-- Go `strings.Split(s, sep)`: the substrings of `s` between the occurrences
of `sep`; one element, `s` itself, when `sep` does not occur; for an empty
`sep` the string is split after each character. -/
def Split (s sep : String) : List String :=
  if sep.data = [] then s.data.map (fun c => String.mk [c])
  else (splitChars sep.data 0 s.data []).map String.mk

end strings

/-! ## Kubernetes API objects (the fields the program reads) -/

/-- The fields of `corev1.Container` the program reads. -/
structure Container where
  Name : String
  Args : List String
  deriving DecidableEq, Repr

/-- The fields of `corev1.PodSpec` the program reads. -/
structure PodSpec where
  Containers : List Container
  deriving DecidableEq, Repr

/-- The fields of `corev1.Pod` the program reads. -/
structure Pod where
  Name : String
  Spec : PodSpec
  deriving DecidableEq, Repr

/-- The fields of `corev1.PodList` the program reads. -/
structure PodList where
  Items : List Pod
  deriving DecidableEq, Repr

/-! ## Package `checker` (`checker/running_cluster.go`) -/

namespace checker

def mapKeyKubeAPIServer : String := "kube-apiserver"
def mapKeyKubeScheduler : String := "kube-scheduler"
def mapKeyKubeControllerManager : String := "kube-controller-manager"
def mapKeyKubeProxy : String := "kube-proxy"

structure FeatureGateConfig where
  FeatureGateKey : String
  FeatureGateValue : String
  deriving DecidableEq, Repr

structure SystemComponentContainer where
  Name : String
  FeatureGates : List FeatureGateConfig
  deriving DecidableEq, Repr

structure SystemComponentPod where
  Name : String
  Containers : List SystemComponentContainer
  deriving DecidableEq, Repr

abbrev SystemComponentFeatureGateMartix := GoMap (List SystemComponentPod)

/-- The loop of `findFeatureGatesFlagInContainerArgs` over the arguments, with
the current content of the variable `value`. -/
def findLoop : List String → String → Except Panic String
  | [], value => .ok value
  | arg :: rest, value =>
    if strings.Contains arg "--feature-gates" then
      match sliceIndex (strings.Split arg "=") 1 with
      | .ok v => findLoop rest v
      | .error e => .error e
    else findLoop rest value

/-- Go `findFeatureGatesFlagInContainerArgs`: `value` starts empty and `ok`
starts false; each argument containing `--feature-gates` overwrites `value`
with element 1 of the argument split on `=`; `ok` is returned as it was
initialised. -/
def findFeatureGatesFlagInContainerArgs (args : List String) : Except Panic (String × Bool) :=
  let value := ""
  let ok := false
  match findLoop args value with
  | .ok value => .ok (value, ok)
  | .error e => .error e

/-- The loop of `parseFeatureGatesValue` over the comma-separated tokens, with
the current content of the map `m`. -/
def parseLoop : List String → GoMap String → Except Panic (GoMap String)
  | [], m => .ok m
  | rawKVPair :: rest, m =>
    let tmp := strings.Split rawKVPair "="
    match sliceIndex tmp 0 with
    | .error e => .error e
    | .ok featureGateName =>
      match sliceIndex tmp 1 with
      | .error e => .error e
      | .ok featureGateValue => parseLoop rest (GoMap.set m featureGateName featureGateValue)

/-- Go `parseFeatureGatesValue`: splits the raw value on `,`, each token on
`=`, and stores element 1 of the token under element 0. -/
def parseFeatureGatesValue (rawFeatureGates : String) : Except Panic (GoMap String) :=
  parseLoop (strings.Split rawFeatureGates ",") []

/-- The body of the loop of `constructSystemComponentPodsMap`: the pod is
appended to the list of each of the four keys its name contains. -/
def podsMapStep (m : GoMap (List Pod)) (p : Pod) : GoMap (List Pod) :=
  let m := if strings.Contains p.Name mapKeyKubeAPIServer then
    GoMap.set m mapKeyKubeAPIServer (GoMap.get [] m mapKeyKubeAPIServer ++ [p]) else m
  let m := if strings.Contains p.Name mapKeyKubeScheduler then
    GoMap.set m mapKeyKubeScheduler (GoMap.get [] m mapKeyKubeScheduler ++ [p]) else m
  let m := if strings.Contains p.Name mapKeyKubeControllerManager then
    GoMap.set m mapKeyKubeControllerManager
      (GoMap.get [] m mapKeyKubeControllerManager ++ [p]) else m
  let m := if strings.Contains p.Name mapKeyKubeProxy then
    GoMap.set m mapKeyKubeProxy (GoMap.get [] m mapKeyKubeProxy ++ [p]) else m
  m

/-- Go `constructSystemComponentPodsMap`: starts from the map literal holding
the four component keys with empty lists and runs the loop body on every pod
of the list, in order. -/
def constructSystemComponentPodsMap (pods : PodList) : GoMap (List Pod) :=
  let m : GoMap (List Pod) := [
    (mapKeyKubeAPIServer, []),
    (mapKeyKubeScheduler, []),
    (mapKeyKubeControllerManager, []),
    (mapKeyKubeProxy, [])]
  pods.Items.foldl podsMapStep m

/-- The innermost loop of `CollectRunningClusterFeatureGates`, over the parsed
pairs: each pair is written at index `featureGateCount`, which the loop never
advances. -/
def gatesLoop : List (String × String) → Nat → List FeatureGateConfig →
    Except Panic (List FeatureGateConfig)
  | [], _, featureGates => .ok featureGates
  | (k, v) :: rest, featureGateCount, featureGates =>
    match sliceAssign featureGates featureGateCount
        { FeatureGateKey := k, FeatureGateValue := v } with
    | .error e => .error e
    | .ok featureGates => gatesLoop rest featureGateCount featureGates

/-- The loop of `CollectRunningClusterFeatureGates` over the containers of one
pod, writing into the pre-sized slice `containers`: the slot of the container
receives its name; when the extractor reports the flag as found, the slot also
receives a list of as many zero-valued gates as the parsed map has entries,
filled by `gatesLoop`. -/
def containersLoop : List Container → Nat → List SystemComponentContainer →
    Except Panic (List SystemComponentContainer)
  | [], _, containers => .ok containers
  | c :: rest, containerIdx, containers =>
    match sliceIndex containers containerIdx with
    | .error e => .error e
    | .ok slot =>
      match sliceAssign containers containerIdx { slot with Name := c.Name } with
      | .error e => .error e
      | .ok containers =>
        match findFeatureGatesFlagInContainerArgs c.Args with
        | .error e => .error e
        | .ok (featureGates, found) =>
          if !found then containersLoop rest (containerIdx + 1) containers
          else
            match parseFeatureGatesValue featureGates with
            | .error e => .error e
            | .ok featureGateKVPairs =>
              let fresh : List FeatureGateConfig :=
                List.replicate featureGateKVPairs.length
                  { FeatureGateKey := "", FeatureGateValue := "" }
              let featureGateCount := 0
              match gatesLoop featureGateKVPairs featureGateCount fresh with
              | .error e => .error e
              | .ok gates =>
                match sliceAssign containers containerIdx
                    { Name := c.Name, FeatureGates := gates } with
                | .error e => .error e
                | .ok containers => containersLoop rest (containerIdx + 1) containers

/-- The loop of `CollectRunningClusterFeatureGates` over the pods of one
component, writing into the pre-sized slice `podConfigs`. -/
def podsLoop : List Pod → Nat → List SystemComponentPod →
    Except Panic (List SystemComponentPod)
  | [], _, podConfigs => .ok podConfigs
  | p :: rest, podIdx, podConfigs =>
    let containers : List SystemComponentContainer :=
      List.replicate p.Spec.Containers.length { Name := "", FeatureGates := [] }
    match containersLoop p.Spec.Containers 0 containers with
    | .error e => .error e
    | .ok containers =>
      match sliceAssign podConfigs podIdx { Name := p.Name, Containers := containers } with
      | .error e => .error e
      | .ok podConfigs => podsLoop rest (podIdx + 1) podConfigs

/-- The loop of `CollectRunningClusterFeatureGates` over the component
buckets, filling the matrix `m`. -/
def componentsLoop : List (String × List Pod) → SystemComponentFeatureGateMartix →
    Except Panic SystemComponentFeatureGateMartix
  | [], m => .ok m
  | (componentName, pods) :: rest, m =>
    let podConfigs : List SystemComponentPod :=
      List.replicate pods.length { Name := "", Containers := [] }
    match podsLoop pods 0 podConfigs with
    | .error e => .error e
    | .ok podConfigs => componentsLoop rest (GoMap.set m componentName podConfigs)

/-- Go `CollectRunningClusterFeatureGates`. The call that lists the pods of
`kube-system` is the argument `listed`: the pod list, or the error of the
call. The result is the pair of the matrix and the returned error. -/
def CollectRunningClusterFeatureGates (listed : Except String PodList) :
    Except Panic (SystemComponentFeatureGateMartix × Option String) :=
  let m : SystemComponentFeatureGateMartix := []
  match listed with
  | .error err => .ok (m, some err)
  | .ok pods =>
    let podMap := constructSystemComponentPodsMap pods
    match componentsLoop podMap m with
    | .error e => .error e
    | .ok m => .ok (m, none)

end checker

/-! ## Package `main` (`main.go`, the single-file variant) -/

namespace main

def mapKeyKubeAPIServer : String := "kube-apiserver"
def mapKeyKubeScheduler : String := "kube-scheduler"

/-- The body of the loop of `constructSystemComponentPodsMap` of `main.go`:
the pod is appended to the list of each of the two keys its name contains. -/
def podsMapStep (m : GoMap (List Pod)) (p : Pod) : GoMap (List Pod) :=
  let m := if strings.Contains p.Name mapKeyKubeAPIServer then
    GoMap.set m mapKeyKubeAPIServer (GoMap.get [] m mapKeyKubeAPIServer ++ [p]) else m
  let m := if strings.Contains p.Name mapKeyKubeScheduler then
    GoMap.set m mapKeyKubeScheduler (GoMap.get [] m mapKeyKubeScheduler ++ [p]) else m
  m

/-- Go `constructSystemComponentPodsMap` of `main.go`: the map literal holds
two component keys. -/
def constructSystemComponentPodsMap (pods : PodList) : GoMap (List Pod) :=
  let m : GoMap (List Pod) := [
    (mapKeyKubeAPIServer, []),
    (mapKeyKubeScheduler, [])]
  pods.Items.foldl podsMapStep m

/-- The loop of `findFeatureGatesFlagInContainerArgs` of `main.go`. -/
def findLoop : List String → String → Except Panic String
  | [], value => .ok value
  | arg :: rest, value =>
    if strings.Contains arg "--feature-gates" then
      match sliceIndex (strings.Split arg "=") 1 with
      | .ok v => findLoop rest v
      | .error e => .error e
    else findLoop rest value

/-- Go `findFeatureGatesFlagInContainerArgs` of `main.go`. -/
def findFeatureGatesFlagInContainerArgs (args : List String) : Except Panic (String × Bool) :=
  let value := ""
  let ok := false
  match findLoop args value with
  | .ok value => .ok (value, ok)
  | .error e => .error e

/-- The loop of `parseFeatureGatesValue` of `main.go`. -/
def parseLoop : List String → GoMap String → Except Panic (GoMap String)
  | [], m => .ok m
  | rawKVPair :: rest, m =>
    let tmp := strings.Split rawKVPair "="
    match sliceIndex tmp 0 with
    | .error e => .error e
    | .ok featureGateName =>
      match sliceIndex tmp 1 with
      | .error e => .error e
      | .ok featureGateValue => parseLoop rest (GoMap.set m featureGateName featureGateValue)

/-- Go `parseFeatureGatesValue` of `main.go`. -/
def parseFeatureGatesValue (rawFeatureGates : String) : Except Panic (GoMap String) :=
  parseLoop (strings.Split rawFeatureGates ",") []

end main

/-! ## The aggregator with the parser call as a parameter

The loops of `CollectRunningClusterFeatureGates` once more, with the call of
`parseFeatureGatesValue` replaced by the argument `parse`; everything else is
as in the package `checker`. -/

namespace checker

/-- The container loop of `containersLoop`, calling `parse` where the source
calls `parseFeatureGatesValue`. -/
def containersLoopWith (parse : String → Except Panic (GoMap String)) :
    List Container → Nat → List SystemComponentContainer →
    Except Panic (List SystemComponentContainer)
  | [], _, containers => .ok containers
  | c :: rest, containerIdx, containers =>
    match sliceIndex containers containerIdx with
    | .error e => .error e
    | .ok slot =>
      match sliceAssign containers containerIdx { slot with Name := c.Name } with
      | .error e => .error e
      | .ok containers =>
        match findFeatureGatesFlagInContainerArgs c.Args with
        | .error e => .error e
        | .ok (featureGates, found) =>
          if !found then containersLoopWith parse rest (containerIdx + 1) containers
          else
            match parse featureGates with
            | .error e => .error e
            | .ok featureGateKVPairs =>
              let fresh : List FeatureGateConfig :=
                List.replicate featureGateKVPairs.length
                  { FeatureGateKey := "", FeatureGateValue := "" }
              let featureGateCount := 0
              match gatesLoop featureGateKVPairs featureGateCount fresh with
              | .error e => .error e
              | .ok gates =>
                match sliceAssign containers containerIdx
                    { Name := c.Name, FeatureGates := gates } with
                | .error e => .error e
                | .ok containers =>
                  containersLoopWith parse rest (containerIdx + 1) containers

/-- The pod loop of `podsLoop` over `containersLoopWith`. -/
def podsLoopWith (parse : String → Except Panic (GoMap String)) :
    List Pod → Nat → List SystemComponentPod → Except Panic (List SystemComponentPod)
  | [], _, podConfigs => .ok podConfigs
  | p :: rest, podIdx, podConfigs =>
    let containers : List SystemComponentContainer :=
      List.replicate p.Spec.Containers.length { Name := "", FeatureGates := [] }
    match containersLoopWith parse p.Spec.Containers 0 containers with
    | .error e => .error e
    | .ok containers =>
      match sliceAssign podConfigs podIdx { Name := p.Name, Containers := containers } with
      | .error e => .error e
      | .ok podConfigs => podsLoopWith parse rest (podIdx + 1) podConfigs

/-- The component loop of `componentsLoop` over `podsLoopWith`. -/
def componentsLoopWith (parse : String → Except Panic (GoMap String)) :
    List (String × List Pod) → SystemComponentFeatureGateMartix →
    Except Panic SystemComponentFeatureGateMartix
  | [], m => .ok m
  | (componentName, pods) :: rest, m =>
    let podConfigs : List SystemComponentPod :=
      List.replicate pods.length { Name := "", Containers := [] }
    match podsLoopWith parse pods 0 podConfigs with
    | .error e => .error e
    | .ok podConfigs => componentsLoopWith parse rest (GoMap.set m componentName podConfigs)

/-- The function `CollectRunningClusterFeatureGates` over `componentsLoopWith`. -/
def CollectWith (parse : String → Except Panic (GoMap String))
    (listed : Except String PodList) :
    Except Panic (SystemComponentFeatureGateMartix × Option String) :=
  let m : SystemComponentFeatureGateMartix := []
  match listed with
  | .error err => .ok (m, some err)
  | .ok pods =>
    let podMap := constructSystemComponentPodsMap pods
    match componentsLoopWith parse podMap m with
    | .error e => .error e
    | .ok m => .ok (m, none)

end checker

/-- A pod list whose API server container has a flag value with the token
`Bfalse`, which has no `=`. -/
def malformedPods : PodList :=
  { Items := [
      { Name := "kube-apiserver-1",
        Spec := { Containers := [
          { Name := "kube-apiserver", Args := ["--feature-gates=A=true,Bfalse"] },
          { Name := "sidecar", Args := [] }] } },
      { Name := "kube-scheduler-1",
        Spec := { Containers := [
          { Name := "kube-scheduler", Args := ["--v=2"] }] } }] }

/-- The matrix the collection returns on `malformedPods`. -/
def malformedMatrix : checker.SystemComponentFeatureGateMartix :=
  [("kube-apiserver", [
      { Name := "kube-apiserver-1"
        Containers := [{ Name := "kube-apiserver", FeatureGates := [] },
          { Name := "sidecar", FeatureGates := [] }] }]),
    ("kube-scheduler", [
      { Name := "kube-scheduler-1"
        Containers := [{ Name := "kube-scheduler", FeatureGates := [] }] }]),
    ("kube-controller-manager", []),
    ("kube-proxy", [])]

/-- A pod list whose API server container has, beside a flag value with the
token `Bfalse`, the flag in its space-separated form, an argument
`--feature-gates` without `=`. -/
def bareFlagPods : PodList :=
  { Items := [
      { Name := "kube-apiserver-1",
        Spec := { Containers := [
          { Name := "kube-apiserver",
            Args := ["--feature-gates=A=true,Bfalse", "--feature-gates"] }] } },
      { Name := "kube-scheduler-1",
        Spec := { Containers := [
          { Name := "kube-scheduler", Args := ["--v=2"] }] } }] }

/-- The end-to-end scenario: an API server pod with a feature-gates flag and a
scheduler pod without one. -/
def scenarioPods : PodList :=
  { Items := [
      { Name := "kube-apiserver-1",
        Spec := { Containers := [
          { Name := "kube-apiserver", Args := ["--feature-gates=Foo=true,Bar=false"] }] } },
      { Name := "kube-scheduler-1",
        Spec := { Containers := [
          { Name := "kube-scheduler", Args := ["--v=2"] }] } }] }

/-- The record of a pod in which every container carries its name and no
feature gate. -/
def emptyGatesPod (p : Pod) : checker.SystemComponentPod :=
  { Name := p.Name,
    Containers := p.Spec.Containers.map fun c => { Name := c.Name, FeatureGates := [] } }

/-- The matrix the collection returns on `scenarioPods`. -/
def scenarioMatrix : checker.SystemComponentFeatureGateMartix :=
  [("kube-apiserver", [
      { Name := "kube-apiserver-1"
        Containers := [{ Name := "kube-apiserver", FeatureGates := [] }] }]),
    ("kube-scheduler", [
      { Name := "kube-scheduler-1"
        Containers := [{ Name := "kube-scheduler", FeatureGates := [] }] }]),
    ("kube-controller-manager", []),
    ("kube-proxy", [])]

/-- A pod list in which one pod name contains two component identifiers. -/
def overlapPods : PodList :=
  { Items := [
      { Name := "kube-proxy-x7k2p", Spec := { Containers := [] } },
      { Name := "kube-scheduler-kube-proxy", Spec := { Containers := [] } },
      { Name := "coredns-5d78c9869d", Spec := { Containers := [] } }] }

/-- The raw flag value made of the tokens `key=value` of the pairs, joined by
`,`. -/
def renderPairs (pairs : List (String × String)) : String :=
  ",".intercalate (pairs.map fun kv => kv.1 ++ "=" ++ kv.2)

/-- The pods of the list whose name contains the identifier, in list order. -/
def podsNamed (B : String) (pods : List Pod) : List Pod :=
  pods.filter fun p => strings.Contains p.Name B

/-- The value of the last pair of the list whose key is `k`, if there is one. -/
def lastValue (pairs : List (String × String)) (k : String) : Option String :=
  (pairs.reverse.find? fun kv => decide (kv.1 = k)).map Prod.snd

/-! ## Facts about the runtime model -/

namespace strings

theorem containsChars_eq_false_of_not_mem {sub s : List Char} {c : Char}
    (hc : c ∈ sub) (hs : c ∉ s) : containsChars sub s = false := by
  induction s with
  | nil =>
    cases sub with
    | nil => simp at hc
    | cons a t => simp [containsChars]
  | cons a t ih =>
    simp only [List.mem_cons, not_or] at hs
    simp only [containsChars, Bool.or_eq_false_iff]
    refine ⟨?_, ih hs.2⟩
    cases hp : sub.isPrefixOf (a :: t) with
    | false => rfl
    | true =>
      exfalso
      have hpre : sub <+: a :: t := List.isPrefixOf_iff_prefix.mp hp
      have hmem : c ∈ a :: t := hpre.subset hc
      simp only [List.mem_cons] at hmem
      rcases hmem with h | h
      · exact hs.1 h
      · exact hs.2 h

/-- For a one-character separator the scan of `Split` is the list splitter. -/
theorem splitChars_single (d : Char) (s cur : List Char) :
    splitChars [d] 0 s cur = List.splitOnP.go (fun x => x == d) s cur := by
  induction s generalizing cur with
  | nil => simp [splitChars, List.splitOnP.go]
  | cons c cs ih =>
    by_cases h : c = d
    · subst h
      simp [splitChars, List.splitOnP.go, List.isPrefixOf, ih]
    · have h' : ¬ d = c := fun e => h e.symm
      simp [splitChars, List.splitOnP.go, List.isPrefixOf, ih, h, h']

theorem Split_comma (s : String) :
    Split s "," = (s.data.splitOn ',').map String.mk := by
  have h : (",".data = []) = False := by decide
  have hd : ",".data = [','] := rfl
  unfold Split
  rw [if_neg (by rw [h]; exact not_false), hd, splitChars_single]
  rfl

theorem Split_eq (s : String) :
    Split s "=" = (s.data.splitOn '=').map String.mk := by
  have h : ("=".data = []) = False := by decide
  have hd : "=".data = ['='] := rfl
  unfold Split
  rw [if_neg (by rw [h]; exact not_false), hd, splitChars_single]
  rfl

end strings

/-! ## Facts about maps -/

namespace GoMap

theorem get?_set_self {V : Type} (m : GoMap V) (k : String) (v : V) :
    get? (set m k v) k = some v := by
  induction m with
  | nil => simp [set, get?]
  | cons e rest ih =>
    obtain ⟨k', v'⟩ := e
    by_cases h : k' = k
    · simp [set, get?, h]
    · simp [set, get?, h, ih]

theorem get?_set_other {V : Type} (m : GoMap V) (k k2 : String) (v : V) (h : k ≠ k2) :
    get? (set m k v) k2 = get? m k2 := by
  induction m with
  | nil => simp [set, get?, h]
  | cons e rest ih =>
    obtain ⟨k', v'⟩ := e
    by_cases h1 : k' = k
    · subst h1
      simp [set, get?, h]
    · by_cases h2 : k' = k2
      · subst h2
        simp [set, get?, h1]
      · simp [set, get?, h1, h2, ih]

theorem mem_keys_set {V : Type} (m : GoMap V) (k k2 : String) (v : V) :
    k2 ∈ keys (set m k v) ↔ k2 = k ∨ k2 ∈ keys m := by
  induction m with
  | nil => simp [set, keys]
  | cons e rest ih =>
    obtain ⟨k', v'⟩ := e
    by_cases h1 : k' = k
    · subst h1
      simp [set, keys]
    · simp only [keys] at ih
      simp only [set, h1, if_false, keys, List.map_cons, List.mem_cons, ih]
      tauto

theorem nodup_keys_set {V : Type} (m : GoMap V) (k : String) (v : V)
    (h : (keys m).Nodup) : (keys (set m k v)).Nodup := by
  induction m with
  | nil => simp [set, keys]
  | cons e rest ih =>
    obtain ⟨k', v'⟩ := e
    simp only [keys, List.map_cons, List.nodup_cons] at h
    by_cases h1 : k' = k
    · subst h1
      simpa [set, keys] using h
    · have hmem := mem_keys_set rest k k' v
      simp only [keys] at hmem ih
      simp only [set, h1, if_false, keys, List.map_cons, List.nodup_cons, hmem]
      refine ⟨?_, ih h.2⟩
      rintro (e | e)
      · exact e.elim
      · exact h.1 e

end GoMap

/-! ## Facts about the parser -/

theorem strings.data_intercalate_go (sep acc : String) (l : List String) :
    (String.intercalate.go acc sep l).data =
      acc.data ++ (l.map fun a => sep.data ++ a.data).flatten := by
  induction l generalizing acc with
  | nil => simp [String.intercalate.go]
  | cons a t ih => simp [String.intercalate.go, ih, String.data_append]

theorem strings.intercalate_cons_eq {α : Type} (sep x : List α) (xs : List (List α)) :
    sep.intercalate (x :: xs) = x ++ (xs.map fun a => sep ++ a).flatten := by
  induction xs generalizing x with
  | nil => simp [List.intercalate]
  | cons y t ih =>
    have h := ih y
    simp only [List.intercalate, List.intersperse, List.flatten_cons, List.map_cons] at h ⊢
    rw [h]
    simp only [List.append_assoc]

theorem strings.data_intercalate (sep : String) (l : List String) :
    (sep.intercalate l).data = sep.data.intercalate (l.map String.data) := by
  cases l with
  | nil => rfl
  | cons a t =>
    rw [List.map_cons, strings.intercalate_cons_eq, List.map_map]
    simp only [String.intercalate, strings.data_intercalate_go]
    rfl

/-- Splitting a well-formed token `k=v` on `=` gives the two parts. -/
theorem strings.Split_token (k v : String) (hk : '=' ∉ k.data) (hv : '=' ∉ v.data) :
    strings.Split (k ++ "=" ++ v) "=" = [k, v] := by
  rw [strings.Split_eq]
  have hdata : (k ++ "=" ++ v).data = k.data ++ '=' :: v.data := by
    simp [String.data_append]
  have h1 : (k.data ++ '=' :: v.data).splitOnP (fun x => x == '=') =
      k.data :: v.data.splitOnP (fun x => x == '=') :=
    List.splitOnP_first (fun x => x == '=') k.data
      (fun x hx hp => hk (by rw [← (beq_iff_eq.mp hp)]; exact hx))
      '=' (by simp) v.data
  have h2 : v.data.splitOnP (fun x => x == '=') = [v.data] :=
    List.splitOnP_eq_single (fun x => x == '=') v.data
      (fun x hx hp => hv (by rw [← (beq_iff_eq.mp hp)]; exact hx))
  rw [hdata, List.splitOn, h1, h2]
  rfl

/-- Splitting the rendered pairs on `,` gives back the tokens. -/
theorem strings.Split_renderPairs (pairs : List (String × String)) (hne : pairs ≠ [])
    (hclean : ∀ kv ∈ pairs, ',' ∉ kv.1.data ∧ ',' ∉ kv.2.data) :
    strings.Split (renderPairs pairs) "," = pairs.map fun kv => kv.1 ++ "=" ++ kv.2 := by
  rw [strings.Split_comma, renderPairs, strings.data_intercalate]
  have hd : ",".data = [','] := rfl
  rw [hd, List.splitOn_intercalate]
  · rw [List.map_map]
    have hid : (String.mk ∘ String.data) = id := rfl
    rw [hid, List.map_id]
  · intro l hl
    simp only [List.mem_map] at hl
    obtain ⟨t, ⟨kv, hkv, rfl⟩, rfl⟩ := hl
    have h := hclean kv hkv
    simp only [String.data_append, List.mem_append, not_or]
    refine ⟨⟨h.1, ?_⟩, h.2⟩
    decide
  · simpa using hne

theorem main.findLoop_eq (args : List String) (value : String) :
    main.findLoop args value = checker.findLoop args value := by
  induction args generalizing value with
  | nil => rfl
  | cons a t ih =>
    simp only [main.findLoop, checker.findLoop, ih]

theorem main.find_eq (args : List String) :
    main.findFeatureGatesFlagInContainerArgs args =
      checker.findFeatureGatesFlagInContainerArgs args := by
  simp only [main.findFeatureGatesFlagInContainerArgs,
    checker.findFeatureGatesFlagInContainerArgs, main.findLoop_eq]

theorem main.parseLoop_eq (tokens : List String) (m : GoMap String) :
    main.parseLoop tokens m = checker.parseLoop tokens m := by
  induction tokens generalizing m with
  | nil => rfl
  | cons a t ih =>
    simp only [main.parseLoop, checker.parseLoop, ih]

theorem main.parse_eq (raw : String) :
    main.parseFeatureGatesValue raw = checker.parseFeatureGatesValue raw := by
  simp only [main.parseFeatureGatesValue, checker.parseFeatureGatesValue, main.parseLoop_eq]

/-- On well-formed tokens the parser loop stores the pairs one after the other. -/
theorem checker.parseLoop_tokens (pairs : List (String × String))
    (hclean : ∀ kv ∈ pairs, '=' ∉ kv.1.data ∧ '=' ∉ kv.2.data) (m : GoMap String) :
    checker.parseLoop (pairs.map fun kv => kv.1 ++ "=" ++ kv.2) m =
      .ok (pairs.foldl (fun m kv => GoMap.set m kv.1 kv.2) m) := by
  induction pairs generalizing m with
  | nil => rfl
  | cons kv rest ih =>
    have h := hclean kv (List.mem_cons_self _ _)
    have hrest : ∀ kv ∈ rest, '=' ∉ kv.1.data ∧ '=' ∉ kv.2.data :=
      fun x hx => hclean x (List.mem_cons_of_mem _ hx)
    simp only [List.map_cons, checker.parseLoop, strings.Split_token kv.1 kv.2 h.1 h.2,
      sliceIndex, List.get?_cons_zero, List.get?_cons_succ, List.foldl_cons]
    exact ih hrest _

theorem lastValue_cons (kv : String × String) (rest : List (String × String)) (k : String) :
    lastValue (kv :: rest) k =
      match lastValue rest k with
      | some v => some v
      | none => if kv.1 = k then some kv.2 else none := by
  unfold lastValue
  rw [List.reverse_cons, List.find?_append]
  cases h : List.find? (fun kv => decide (kv.1 = k)) rest.reverse with
  | some x => simp
  | none =>
    by_cases hk : kv.1 = k
    · simp [List.find?, hk]
    · simp [List.find?, hk]

theorem GoMap.get?_foldl_set (pairs : List (String × String)) (m : GoMap String) (k : String) :
    GoMap.get? (pairs.foldl (fun m kv => GoMap.set m kv.1 kv.2) m) k =
      match lastValue pairs k with
      | some v => some v
      | none => GoMap.get? m k := by
  induction pairs generalizing m with
  | nil => simp [lastValue]
  | cons kv rest ih =>
    rw [List.foldl_cons, ih, lastValue_cons]
    cases h : lastValue rest k with
    | some v => rfl
    | none =>
      by_cases hk : kv.1 = k
      · simp only [hk, if_true]
        rw [← hk]
        exact GoMap.get?_set_self m kv.1 kv.2
      · simp only [hk, if_false]
        exact GoMap.get?_set_other m kv.1 k kv.2 hk

theorem GoMap.mem_keys_foldl_set (pairs : List (String × String)) (m : GoMap String)
    (k : String) :
    k ∈ GoMap.keys (pairs.foldl (fun m kv => GoMap.set m kv.1 kv.2) m) ↔
      k ∈ pairs.map Prod.fst ∨ k ∈ GoMap.keys m := by
  induction pairs generalizing m with
  | nil => simp
  | cons kv rest ih =>
    rw [List.foldl_cons, ih, GoMap.mem_keys_set]
    simp only [List.map_cons, List.mem_cons]
    tauto

theorem GoMap.nodup_keys_foldl_set (pairs : List (String × String)) (m : GoMap String)
    (h : (GoMap.keys m).Nodup) :
    (GoMap.keys (pairs.foldl (fun m kv => GoMap.set m kv.1 kv.2) m)).Nodup := by
  induction pairs generalizing m with
  | nil => simpa using h
  | cons kv rest ih =>
    rw [List.foldl_cons]
    exact ih _ (GoMap.nodup_keys_set m kv.1 kv.2 h)

/-- C3: for a non-empty list of pairs whose keys and values hold neither `,`
nor `=`, `parseFeatureGatesValue` (of either file) applied to the tokens
`key=value` joined by `,` returns a map whose keys are distinct and are exactly
the listed keys, and which gives each key the value of its last occurrence. -/
theorem parseFeatureGatesValue_wellformed (pairs : List (String × String))
    (hne : pairs ≠ [])
    (hclean : ∀ kv ∈ pairs, (',' ∉ kv.1.data ∧ '=' ∉ kv.1.data) ∧
      (',' ∉ kv.2.data ∧ '=' ∉ kv.2.data)) :
    ∃ m : GoMap String,
      checker.parseFeatureGatesValue (renderPairs pairs) = .ok m ∧
      main.parseFeatureGatesValue (renderPairs pairs) = .ok m ∧
      (GoMap.keys m).Nodup ∧
      (∀ k, k ∈ GoMap.keys m ↔ k ∈ pairs.map Prod.fst) ∧
      (∀ k, GoMap.get? m k = lastValue pairs k) := by
  have hrun : checker.parseFeatureGatesValue (renderPairs pairs) =
      .ok (pairs.foldl (fun m kv => GoMap.set m kv.1 kv.2) []) := by
    unfold checker.parseFeatureGatesValue
    rw [strings.Split_renderPairs pairs hne (fun kv h => ⟨(hclean kv h).1.1, (hclean kv h).2.1⟩)]
    exact checker.parseLoop_tokens pairs
      (fun kv h => ⟨(hclean kv h).1.2, (hclean kv h).2.2⟩) []
  refine ⟨_, hrun, (main.parse_eq _).trans hrun, ?_, ?_, ?_⟩
  · exact GoMap.nodup_keys_foldl_set pairs [] (by simp [GoMap.keys])
  · intro k
    rw [GoMap.mem_keys_foldl_set]
    simp [GoMap.keys]
  · intro k
    rw [GoMap.get?_foldl_set]
    cases lastValue pairs k <;> rfl

/-- C3, at the example of the specification: `A=true,B=false` parses to the
map with `A` at `true` and `B` at `false`. -/
theorem parseFeatureGatesValue_wellformed_witness :
    ([("A", "true"), ("B", "false")] ≠ ([] : List (String × String))) ∧
    renderPairs [("A", "true"), ("B", "false")] = "A=true,B=false" ∧
    checker.parseFeatureGatesValue "A=true,B=false" = .ok [("A", "true"), ("B", "false")] ∧
    ∃ m : GoMap String,
      checker.parseFeatureGatesValue (renderPairs [("A", "true"), ("B", "false")]) = .ok m ∧
      main.parseFeatureGatesValue (renderPairs [("A", "true"), ("B", "false")]) = .ok m ∧
      (GoMap.keys m).Nodup ∧
      (∀ k, k ∈ GoMap.keys m ↔ k ∈ [("A", "true"), ("B", "false")].map Prod.fst) ∧
      (∀ k, GoMap.get? m k = lastValue [("A", "true"), ("B", "false")] k) :=
  ⟨by decide, by decide, rfl,
    parseFeatureGatesValue_wellformed [("A", "true"), ("B", "false")] (by decide) (by decide)⟩

/-! ## The extractor -/

/-- C1: on the argument list holding the single flag `--feature-gates=Foo=true`
the extractor of either file returns the found-flag `false`, with the value
`Foo`. -/
theorem findFeatureGatesFlag_single_flag_not_found :
    checker.findFeatureGatesFlagInContainerArgs ["--feature-gates=Foo=true"] =
      .ok ("Foo", false) ∧
    main.findFeatureGatesFlagInContainerArgs ["--feature-gates=Foo=true"] =
      .ok ("Foo", false) :=
  ⟨rfl, rfl⟩

/-- C4: on `A=true,Bfalse`, whose second token has no `=`, the parser of either
file stops with the run-time panic `index out of range [1] with length 1`,
which carries no token. -/
theorem parseFeatureGatesValue_malformed_token_panics :
    checker.parseFeatureGatesValue "A=true,Bfalse" = .error (.indexOutOfRange 1 1) ∧
    main.parseFeatureGatesValue "A=true,Bfalse" = .error (.indexOutOfRange 1 1) :=
  ⟨rfl, rfl⟩

/-- C5: on the empty string the parser of either file stops with the run-time
panic `index out of range [1] with length 1`: the split of the empty string on
`,` is the one empty token, which has no `=`. -/
theorem parseFeatureGatesValue_empty_panics :
    strings.Split "" "," = [""] ∧
    checker.parseFeatureGatesValue "" = .error (.indexOutOfRange 1 1) ∧
    main.parseFeatureGatesValue "" = .error (.indexOutOfRange 1 1) :=
  ⟨rfl, rfl, rfl⟩

/-- C6: on `--feature-gates=Foo=true,Bar=false` the extractor of either file
returns `Foo`, the text between the first and the second `=`, and not the
whole of `Foo=true,Bar=false`. -/
theorem findFeatureGatesFlag_value_cut_at_second_eq :
    strings.Split "--feature-gates=Foo=true,Bar=false" "=" =
      ["--feature-gates", "Foo", "true,Bar", "false"] ∧
    checker.findFeatureGatesFlagInContainerArgs ["--feature-gates=Foo=true,Bar=false"] =
      .ok ("Foo", false) ∧
    main.findFeatureGatesFlagInContainerArgs ["--feature-gates=Foo=true,Bar=false"] =
      .ok ("Foo", false) :=
  ⟨rfl, rfl, rfl⟩

theorem checker.findLoop_no_candidate (args : List String) (value : String)
    (h : ∀ a ∈ args, strings.Contains a "--feature-gates" = false) :
    checker.findLoop args value = .ok value := by
  induction args with
  | nil => rfl
  | cons a t ih =>
    have ha := h a (List.mem_cons_self _ _)
    simp only [checker.findLoop, ha]
    exact ih (fun x hx => h x (List.mem_cons_of_mem _ hx))

/-- C8: when no argument contains `--feature-gates`, the extractor of either
file returns the empty value and the found-flag `false`. -/
theorem findFeatureGatesFlag_no_candidate (args : List String)
    (h : ∀ a ∈ args, strings.Contains a "--feature-gates" = false) :
    checker.findFeatureGatesFlagInContainerArgs args = .ok ("", false) ∧
    main.findFeatureGatesFlagInContainerArgs args = .ok ("", false) := by
  have hc : checker.findFeatureGatesFlagInContainerArgs args = .ok ("", false) := by
    simp only [checker.findFeatureGatesFlagInContainerArgs,
      checker.findLoop_no_candidate args "" h]
  exact ⟨hc, (main.find_eq args).trans hc⟩

/-- C8, at the argument lists `["--v=2", "--bind-address=0.0.0.0"]` and `[]`. -/
theorem findFeatureGatesFlag_no_candidate_witness :
    (∀ a ∈ ["--v=2", "--bind-address=0.0.0.0"],
      strings.Contains a "--feature-gates" = false) ∧
    (checker.findFeatureGatesFlagInContainerArgs ["--v=2", "--bind-address=0.0.0.0"] =
      .ok ("", false) ∧
     main.findFeatureGatesFlagInContainerArgs ["--v=2", "--bind-address=0.0.0.0"] =
      .ok ("", false)) ∧
    (checker.findFeatureGatesFlagInContainerArgs [] = .ok ("", false) ∧
     main.findFeatureGatesFlagInContainerArgs [] = .ok ("", false)) :=
  ⟨by decide,
    findFeatureGatesFlag_no_candidate ["--v=2", "--bind-address=0.0.0.0"] (by decide),
    findFeatureGatesFlag_no_candidate [] (by simp)⟩

/-- C9: on two flags `--feature-gates=A=true` and `--feature-gates=B=false` the
extractor of either file returns `B`: the later flag has replaced the earlier
one, and the value is cut at the second `=` instead of being `B=false`. -/
theorem findFeatureGatesFlag_two_flags_value_cut :
    checker.findFeatureGatesFlagInContainerArgs
      ["--feature-gates=A=true", "--feature-gates=B=false"] = .ok ("B", false) ∧
    main.findFeatureGatesFlagInContainerArgs
      ["--feature-gates=A=true", "--feature-gates=B=false"] = .ok ("B", false) :=
  ⟨rfl, rfl⟩

/-! ## The classifier -/

theorem podsNamed_cons (B : String) (p : Pod) (ps : List Pod) :
    podsNamed B (p :: ps) =
      (if strings.Contains p.Name B then [p] else []) ++ podsNamed B ps := by
  unfold podsNamed
  by_cases h : strings.Contains p.Name B = true
  · simp [List.filter_cons, h]
  · simp [List.filter_cons, h]

theorem checker.podsMapStep_eq (p : Pod) (l1 l2 l3 l4 : List Pod) :
    checker.podsMapStep
      [(checker.mapKeyKubeAPIServer, l1), (checker.mapKeyKubeScheduler, l2),
        (checker.mapKeyKubeControllerManager, l3), (checker.mapKeyKubeProxy, l4)] p =
    [(checker.mapKeyKubeAPIServer,
        l1 ++ if strings.Contains p.Name checker.mapKeyKubeAPIServer then [p] else []),
      (checker.mapKeyKubeScheduler,
        l2 ++ if strings.Contains p.Name checker.mapKeyKubeScheduler then [p] else []),
      (checker.mapKeyKubeControllerManager,
        l3 ++ if strings.Contains p.Name checker.mapKeyKubeControllerManager then [p] else []),
      (checker.mapKeyKubeProxy,
        l4 ++ if strings.Contains p.Name checker.mapKeyKubeProxy then [p] else [])] := by
  unfold checker.podsMapStep
  by_cases h1 : strings.Contains p.Name checker.mapKeyKubeAPIServer = true <;>
  by_cases h2 : strings.Contains p.Name checker.mapKeyKubeScheduler = true <;>
  by_cases h3 : strings.Contains p.Name checker.mapKeyKubeControllerManager = true <;>
  by_cases h4 : strings.Contains p.Name checker.mapKeyKubeProxy = true <;>
  simp only [h1, h2, h3, h4, if_true, if_false] <;>
  simp [GoMap.set, GoMap.get, GoMap.get?, checker.mapKeyKubeAPIServer,
    checker.mapKeyKubeScheduler, checker.mapKeyKubeControllerManager,
    checker.mapKeyKubeProxy]

theorem checker.podsMap_fold (ps : List Pod) (l1 l2 l3 l4 : List Pod) :
    ps.foldl checker.podsMapStep
      [(checker.mapKeyKubeAPIServer, l1), (checker.mapKeyKubeScheduler, l2),
        (checker.mapKeyKubeControllerManager, l3), (checker.mapKeyKubeProxy, l4)] =
    [(checker.mapKeyKubeAPIServer, l1 ++ podsNamed checker.mapKeyKubeAPIServer ps),
      (checker.mapKeyKubeScheduler, l2 ++ podsNamed checker.mapKeyKubeScheduler ps),
      (checker.mapKeyKubeControllerManager,
        l3 ++ podsNamed checker.mapKeyKubeControllerManager ps),
      (checker.mapKeyKubeProxy, l4 ++ podsNamed checker.mapKeyKubeProxy ps)] := by
  induction ps generalizing l1 l2 l3 l4 with
  | nil => simp [podsNamed]
  | cons p rest ih =>
    rw [List.foldl_cons, checker.podsMapStep_eq, ih]
    simp only [podsNamed_cons, List.append_assoc]

/-- The map the classifier of the checker package returns, entry by entry. -/
theorem checker.constructSystemComponentPodsMap_eq (pods : PodList) :
    checker.constructSystemComponentPodsMap pods =
    [(checker.mapKeyKubeAPIServer, podsNamed checker.mapKeyKubeAPIServer pods.Items),
      (checker.mapKeyKubeScheduler, podsNamed checker.mapKeyKubeScheduler pods.Items),
      (checker.mapKeyKubeControllerManager,
        podsNamed checker.mapKeyKubeControllerManager pods.Items),
      (checker.mapKeyKubeProxy, podsNamed checker.mapKeyKubeProxy pods.Items)] := by
  unfold checker.constructSystemComponentPodsMap
  simp only [checker.podsMap_fold, List.nil_append]

theorem main.podsMapStep_two_keys (p : Pod) (l1 l2 : List Pod) :
    main.podsMapStep
      [(main.mapKeyKubeAPIServer, l1), (main.mapKeyKubeScheduler, l2)] p =
    [(main.mapKeyKubeAPIServer,
        l1 ++ if strings.Contains p.Name main.mapKeyKubeAPIServer then [p] else []),
      (main.mapKeyKubeScheduler,
        l2 ++ if strings.Contains p.Name main.mapKeyKubeScheduler then [p] else [])] := by
  unfold main.podsMapStep
  by_cases h1 : strings.Contains p.Name main.mapKeyKubeAPIServer = true <;>
  by_cases h2 : strings.Contains p.Name main.mapKeyKubeScheduler = true <;>
  simp only [h1, h2, if_true, if_false] <;>
  simp [GoMap.set, GoMap.get, GoMap.get?, main.mapKeyKubeAPIServer,
    main.mapKeyKubeScheduler]

theorem main.podsMap_fold_two_keys (ps : List Pod) (l1 l2 : List Pod) :
    ps.foldl main.podsMapStep
      [(main.mapKeyKubeAPIServer, l1), (main.mapKeyKubeScheduler, l2)] =
    [(main.mapKeyKubeAPIServer, l1 ++ podsNamed main.mapKeyKubeAPIServer ps),
      (main.mapKeyKubeScheduler, l2 ++ podsNamed main.mapKeyKubeScheduler ps)] := by
  induction ps generalizing l1 l2 with
  | nil => simp [podsNamed]
  | cons p rest ih =>
    rw [List.foldl_cons, main.podsMapStep_two_keys, ih]
    simp only [podsNamed_cons, List.append_assoc]

/-- The map the classifier of `main.go` returns, entry by entry. -/
theorem main.constructSystemComponentPodsMap_two_keys (pods : PodList) :
    main.constructSystemComponentPodsMap pods =
    [(main.mapKeyKubeAPIServer, podsNamed main.mapKeyKubeAPIServer pods.Items),
      (main.mapKeyKubeScheduler, podsNamed main.mapKeyKubeScheduler pods.Items)] := by
  unfold main.constructSystemComponentPodsMap
  simp only [main.podsMap_fold_two_keys, List.nil_append]

/-- C7: for every pod list and every configured identifier `B` (four in the
checker package, two in `main.go`), the bucket `constructSystemComponentPodsMap`
stores under `B` is the list of the input pods whose name contains `B`, in
input order; so a pod is in the bucket exactly when it is an input pod whose
name contains `B`, whatever other identifiers its name contains. -/
theorem constructSystemComponentPodsMap_bucket (pods : PodList) (B : String) :
    (B ∈ [checker.mapKeyKubeAPIServer, checker.mapKeyKubeScheduler,
        checker.mapKeyKubeControllerManager, checker.mapKeyKubeProxy] →
      GoMap.get? (checker.constructSystemComponentPodsMap pods) B =
        some (pods.Items.filter fun p => strings.Contains p.Name B)) ∧
    (B ∈ [main.mapKeyKubeAPIServer, main.mapKeyKubeScheduler] →
      GoMap.get? (main.constructSystemComponentPodsMap pods) B =
        some (pods.Items.filter fun p => strings.Contains p.Name B)) ∧
    (pods.Items.filter fun p => strings.Contains p.Name B).Sublist pods.Items ∧
    (∀ p, p ∈ (pods.Items.filter fun p => strings.Contains p.Name B) ↔
      p ∈ pods.Items ∧ strings.Contains p.Name B = true) := by
  refine ⟨?_, ?_, List.filter_sublist _, fun p => List.mem_filter⟩
  · intro hB
    rw [checker.constructSystemComponentPodsMap_eq]
    simp only [List.mem_cons, List.mem_singleton, List.not_mem_nil, or_false] at hB
    rcases hB with h | h | h | h <;> subst h <;>
      simp [GoMap.get?, podsNamed, checker.mapKeyKubeAPIServer, checker.mapKeyKubeScheduler,
        checker.mapKeyKubeControllerManager, checker.mapKeyKubeProxy]
  · intro hB
    rw [main.constructSystemComponentPodsMap_two_keys]
    simp only [List.mem_cons, List.mem_singleton, List.not_mem_nil, or_false] at hB
    rcases hB with h | h <;> subst h <;>
      simp [GoMap.get?, podsNamed, main.mapKeyKubeAPIServer, main.mapKeyKubeScheduler]

/-- C7, at a pod list whose second pod name contains both `kube-scheduler` and
`kube-proxy`: the pod is in the bucket of `kube-proxy`, and (by evaluation) in
that of `kube-scheduler` as well. -/
theorem constructSystemComponentPodsMap_bucket_witness :
    GoMap.get? (checker.constructSystemComponentPodsMap overlapPods) "kube-proxy" =
      some [{ Name := "kube-proxy-x7k2p", Spec := { Containers := [] } },
        { Name := "kube-scheduler-kube-proxy", Spec := { Containers := [] } }] ∧
    GoMap.get? (checker.constructSystemComponentPodsMap overlapPods) "kube-scheduler" =
      some [{ Name := "kube-scheduler-kube-proxy", Spec := { Containers := [] } }] ∧
    GoMap.get? (main.constructSystemComponentPodsMap overlapPods) "kube-scheduler" =
      some [{ Name := "kube-scheduler-kube-proxy", Spec := { Containers := [] } }] :=
  ⟨(constructSystemComponentPodsMap_bucket overlapPods "kube-proxy").1 (by decide),
    rfl,
    (constructSystemComponentPodsMap_bucket overlapPods "kube-scheduler").2.1 (by decide)⟩

/-! ## The aggregator -/

theorem sliceIndex_append_length {α : Type} (done rest : List α) (x : α) :
    sliceIndex (done ++ x :: rest) done.length = .ok x := by
  unfold sliceIndex
  have h : (done ++ x :: rest).get? done.length = some x := by
    induction done with
    | nil => rfl
    | cons a t ih => simpa using ih
  rw [h]

theorem sliceAssign_append_length {α : Type} (done rest : List α) (x y : α) :
    sliceAssign (done ++ x :: rest) done.length y = .ok (done ++ y :: rest) := by
  unfold sliceAssign
  have hlt : done.length < (done ++ x :: rest).length := by simp
  have hset : (done ++ x :: rest).set done.length y = done ++ y :: rest := by
    induction done with
    | nil => rfl
    | cons a t ih => simp
  rw [if_pos hlt, hset]

/-- The found-flag of the extractor is the constant it was initialised with. -/
theorem checker.find_eq_findLoop (args : List String) :
    checker.findFeatureGatesFlagInContainerArgs args =
      match checker.findLoop args "" with
      | .ok value => .ok (value, false)
      | .error e => .error e := rfl

/-- One turn of the container loop on a slice whose first `done.length` slots
are filled: the slot of the container receives its name and no feature gate,
or the extractor panics. -/
theorem checker.containersLoop_cons (c : Container) (rest : List Container)
    (done : List checker.SystemComponentContainer) :
    checker.containersLoop (c :: rest) done.length
        (done ++ List.replicate (rest.length + 1) { Name := "", FeatureGates := [] }) =
      match checker.findLoop c.Args "" with
      | .error e => .error e
      | .ok _ =>
        checker.containersLoop rest (done.length + 1)
          (done ++ ({ Name := c.Name, FeatureGates := [] } : checker.SystemComponentContainer) ::
            List.replicate rest.length { Name := "", FeatureGates := [] }) := by
  rw [List.replicate_succ, checker.containersLoop, sliceIndex_append_length]
  simp only [sliceAssign_append_length, checker.find_eq_findLoop]
  cases checker.findLoop c.Args "" with
  | error e => rfl
  | ok v => simp

/-- The record the aggregator builds for a container. -/
theorem checker.containersLoop_ok (cs : List Container)
    (done out : List checker.SystemComponentContainer)
    (h : checker.containersLoop cs done.length
      (done ++ List.replicate cs.length { Name := "", FeatureGates := [] }) = .ok out) :
    out = done ++ cs.map fun c => { Name := c.Name, FeatureGates := [] } := by
  induction cs generalizing done with
  | nil =>
    simp only [checker.containersLoop, List.length_nil, List.replicate_zero,
      List.append_nil, Except.ok.injEq] at h
    simp [h]
  | cons c rest ih =>
    rw [List.length_cons, checker.containersLoop_cons] at h
    cases hf : checker.findLoop c.Args "" with
    | error e => rw [hf] at h; cases h
    | ok v =>
      rw [hf] at h
      have h2 := ih (done ++ [{ Name := c.Name, FeatureGates := [] }])
        (by simpa using h)
      simpa using h2

theorem checker.containersLoop_complete (cs : List Container)
    (done : List checker.SystemComponentContainer)
    (h : ∀ c ∈ cs, ∃ v, checker.findLoop c.Args "" = .ok v) :
    checker.containersLoop cs done.length
      (done ++ List.replicate cs.length { Name := "", FeatureGates := [] }) =
      .ok (done ++ cs.map fun c => { Name := c.Name, FeatureGates := [] }) := by
  induction cs generalizing done with
  | nil => simp [checker.containersLoop]
  | cons c rest ih =>
    obtain ⟨v, hv⟩ := h c (List.mem_cons_self _ _)
    rw [List.length_cons, checker.containersLoop_cons, hv]
    have h2 := ih (done ++ [{ Name := c.Name, FeatureGates := [] }])
      (fun x hx => h x (List.mem_cons_of_mem _ hx))
    simpa using h2

theorem checker.podsLoop_cons (p : Pod) (rest : List Pod)
    (done : List checker.SystemComponentPod) :
    checker.podsLoop (p :: rest) done.length
        (done ++ List.replicate (rest.length + 1) { Name := "", Containers := [] }) =
      match checker.containersLoop p.Spec.Containers 0
          (List.replicate p.Spec.Containers.length { Name := "", FeatureGates := [] }) with
      | .error e => .error e
      | .ok containers =>
        checker.podsLoop rest (done.length + 1)
          (done ++ ({ Name := p.Name, Containers := containers } : checker.SystemComponentPod) ::
            List.replicate rest.length { Name := "", Containers := [] }) := by
  rw [List.replicate_succ, checker.podsLoop]
  simp only [sliceAssign_append_length]

theorem checker.podsLoop_ok (ps : List Pod) (done out : List checker.SystemComponentPod)
    (h : checker.podsLoop ps done.length
      (done ++ List.replicate ps.length { Name := "", Containers := [] }) = .ok out) :
    out = done ++ ps.map emptyGatesPod := by
  induction ps generalizing done with
  | nil =>
    simp only [checker.podsLoop, List.length_nil, List.replicate_zero,
      List.append_nil, Except.ok.injEq] at h
    simp [h]
  | cons p rest ih =>
    rw [List.length_cons, checker.podsLoop_cons] at h
    cases hc : checker.containersLoop p.Spec.Containers 0
        (List.replicate p.Spec.Containers.length { Name := "", FeatureGates := [] }) with
    | error e => rw [hc] at h; cases h
    | ok containers =>
      rw [hc] at h
      have hshape := checker.containersLoop_ok p.Spec.Containers [] containers hc
      rw [List.nil_append] at hshape
      subst hshape
      have h2 := ih (done ++ [emptyGatesPod p]) (by simpa [emptyGatesPod] using h)
      simpa using h2

theorem checker.podsLoop_complete (ps : List Pod) (done : List checker.SystemComponentPod)
    (h : ∀ p ∈ ps, ∀ c ∈ p.Spec.Containers, ∃ v, checker.findLoop c.Args "" = .ok v) :
    checker.podsLoop ps done.length
      (done ++ List.replicate ps.length { Name := "", Containers := [] }) =
      .ok (done ++ ps.map emptyGatesPod) := by
  induction ps generalizing done with
  | nil => simp [checker.podsLoop]
  | cons p rest ih =>
    have hc := checker.containersLoop_complete p.Spec.Containers []
      (h p (List.mem_cons_self _ _))
    rw [List.nil_append, List.nil_append, List.length_nil] at hc
    rw [List.length_cons, checker.podsLoop_cons, hc]
    have h2 := ih (done ++ [emptyGatesPod p])
      (fun x hx => h x (List.mem_cons_of_mem _ hx))
    simpa [emptyGatesPod] using h2

theorem checker.componentsLoop_ok (buckets : List (String × List Pod))
    (m out : checker.SystemComponentFeatureGateMartix)
    (h : checker.componentsLoop buckets m = .ok out) :
    out = buckets.foldl (fun m b => GoMap.set m b.1 (b.2.map emptyGatesPod)) m := by
  induction buckets generalizing m with
  | nil =>
    simp only [checker.componentsLoop, Except.ok.injEq] at h
    simp [h]
  | cons b rest ih =>
    obtain ⟨B, ps⟩ := b
    rw [checker.componentsLoop] at h
    cases hp : checker.podsLoop ps 0
        (List.replicate ps.length { Name := "", Containers := [] }) with
    | error e => simp only [hp] at h; cases h
    | ok podConfigs =>
      simp only [hp] at h
      have hshape := checker.podsLoop_ok ps [] podConfigs hp
      rw [List.nil_append] at hshape
      subst hshape
      exact ih _ h

theorem checker.componentsLoop_complete (buckets : List (String × List Pod))
    (m : checker.SystemComponentFeatureGateMartix)
    (h : ∀ b ∈ buckets, ∀ p ∈ b.2, ∀ c ∈ p.Spec.Containers,
      ∃ v, checker.findLoop c.Args "" = .ok v) :
    checker.componentsLoop buckets m =
      .ok (buckets.foldl (fun m b => GoMap.set m b.1 (b.2.map emptyGatesPod)) m) := by
  induction buckets generalizing m with
  | nil => rfl
  | cons b rest ih =>
    obtain ⟨B, ps⟩ := b
    have hp := checker.podsLoop_complete ps [] (h (B, ps) (List.mem_cons_self _ _))
    rw [List.nil_append, List.nil_append, List.length_nil] at hp
    rw [checker.componentsLoop]
    simp only [hp, List.foldl_cons]
    exact ih _ (fun x hx => h x (List.mem_cons_of_mem _ hx))

/-- The matrix of a collection that completes: every bucket of the classifier,
each pod with its containers by name, and no feature gate anywhere. -/
theorem checker.Collect_ok (pods : PodList) (m : checker.SystemComponentFeatureGateMartix)
    (err : Option String)
    (h : checker.CollectRunningClusterFeatureGates (.ok pods) = .ok (m, err)) :
    err = none ∧
    m = [(checker.mapKeyKubeAPIServer,
          (podsNamed checker.mapKeyKubeAPIServer pods.Items).map emptyGatesPod),
        (checker.mapKeyKubeScheduler,
          (podsNamed checker.mapKeyKubeScheduler pods.Items).map emptyGatesPod),
        (checker.mapKeyKubeControllerManager,
          (podsNamed checker.mapKeyKubeControllerManager pods.Items).map emptyGatesPod),
        (checker.mapKeyKubeProxy,
          (podsNamed checker.mapKeyKubeProxy pods.Items).map emptyGatesPod)] := by
  simp only [checker.CollectRunningClusterFeatureGates] at h
  cases hc : checker.componentsLoop (checker.constructSystemComponentPodsMap pods) [] with
  | error e => rw [hc] at h; cases h
  | ok out =>
    rw [hc] at h
    simp only [Except.ok.injEq, Prod.mk.injEq] at h
    have hshape := checker.componentsLoop_ok _ _ _ hc
    rw [checker.constructSystemComponentPodsMap_eq] at hshape
    refine ⟨h.2.symm, ?_⟩
    rw [← h.1, hshape]
    simp [GoMap.set, checker.mapKeyKubeAPIServer, checker.mapKeyKubeScheduler,
      checker.mapKeyKubeControllerManager, checker.mapKeyKubeProxy]

/-- A list holding a separator splits into at least two pieces. -/
theorem strings.length_splitOnP_of_mem (p : Char → Bool) (l : List Char)
    (h : ∃ x ∈ l, p x = true) : 2 ≤ (l.splitOnP p).length := by
  induction l with
  | nil => simp at h
  | cons c t ih =>
    rw [List.splitOnP_cons]
    by_cases hc : p c = true
    · rw [if_pos hc]
      have hne := List.splitOnP_ne_nil p t
      cases hs : List.splitOnP p t with
      | nil => exact absurd hs hne
      | cons a r => simp
    · rw [if_neg hc]
      have ht : ∃ x ∈ t, p x = true := by
        obtain ⟨x, hx, hpx⟩ := h
        simp only [List.mem_cons] at hx
        rcases hx with e | e
        · subst e; exact absurd hpx hc
        · exact ⟨x, e, hpx⟩
      have h2 := ih ht
      cases hs : List.splitOnP p t with
      | nil => rw [hs] at h2; simp at h2
      | cons a r => rw [hs] at h2; simpa using h2

/-- An argument holding `=` has an element 1 in its split on `=`. -/
theorem strings.Split_eq_index_one (a : String) (h : '=' ∈ a.data) :
    ∃ v, sliceIndex (strings.Split a "=") 1 = .ok v := by
  have hlen : 2 ≤ (strings.Split a "=").length := by
    rw [strings.Split_eq, List.length_map]
    exact strings.length_splitOnP_of_mem _ _ ⟨'=', h, by simp⟩
  cases hs : strings.Split a "=" with
  | nil => rw [hs] at hlen; simp at hlen
  | cons x r =>
    cases r with
    | nil => rw [hs] at hlen; simp at hlen
    | cons y r2 => exact ⟨y, rfl⟩

/-- The extractor loop returns when every argument containing
`--feature-gates` also holds a `=`. -/
theorem checker.findLoop_complete (args : List String) (value : String)
    (h : ∀ a ∈ args, strings.Contains a "--feature-gates" = true → '=' ∈ a.data) :
    ∃ v, checker.findLoop args value = .ok v := by
  induction args generalizing value with
  | nil => exact ⟨value, rfl⟩
  | cons a t ih =>
    have ht : ∀ x ∈ t, strings.Contains x "--feature-gates" = true → '=' ∈ x.data :=
      fun x hx => h x (List.mem_cons_of_mem _ hx)
    by_cases hc : strings.Contains a "--feature-gates" = true
    · obtain ⟨v, hv⟩ := strings.Split_eq_index_one a (h a (List.mem_cons_self _ _) hc)
      simp only [checker.findLoop, hc, if_true, hv]
      exact ih v ht
    · simp only [checker.findLoop, hc]
      exact ih value ht

/-- The collection completes when, in every container of every pod, each
argument containing `--feature-gates` also holds a `=`. -/
theorem checker.Collect_complete (pods : PodList)
    (h : ∀ p ∈ pods.Items, ∀ c ∈ p.Spec.Containers, ∀ a ∈ c.Args,
      strings.Contains a "--feature-gates" = true → '=' ∈ a.data) :
    ∃ m, checker.CollectRunningClusterFeatureGates (.ok pods) = .ok (m, none) := by
  have hb : ∀ b ∈ checker.constructSystemComponentPodsMap pods, ∀ p ∈ b.2,
      ∀ c ∈ p.Spec.Containers, ∃ v, checker.findLoop c.Args "" = .ok v := by
    intro b hb p hp c hc
    rw [checker.constructSystemComponentPodsMap_eq] at hb
    simp only [List.mem_cons, List.mem_singleton, List.not_mem_nil, or_false] at hb
    have hmem : p ∈ pods.Items := by
      rcases hb with e | e | e | e <;> subst e <;>
        exact (List.mem_filter.mp hp).1
    exact checker.findLoop_complete c.Args "" (h p hmem c hc)
  have hc := checker.componentsLoop_complete _ [] hb
  simp only [checker.CollectRunningClusterFeatureGates, hc]
  exact ⟨_, rfl⟩

/-- The shape of the matrix of a completed collection under one component. -/
theorem checker.Collect_ok_bucket (pods : PodList)
    (m : checker.SystemComponentFeatureGateMartix) (err : Option String)
    (h : checker.CollectRunningClusterFeatureGates (.ok pods) = .ok (m, err))
    (B : String)
    (hB : B ∈ [checker.mapKeyKubeAPIServer, checker.mapKeyKubeScheduler,
      checker.mapKeyKubeControllerManager, checker.mapKeyKubeProxy]) :
    GoMap.get? (checker.constructSystemComponentPodsMap pods) B =
      some (podsNamed B pods.Items) ∧
    GoMap.get? m B = some ((podsNamed B pods.Items).map emptyGatesPod) := by
  obtain ⟨_, hm⟩ := checker.Collect_ok pods m err h
  simp only [List.mem_cons, List.mem_singleton, List.not_mem_nil, or_false] at hB
  constructor
  · rw [checker.constructSystemComponentPodsMap_eq]
    rcases hB with e | e | e | e <;> subst e <;>
      simp [GoMap.get?, checker.mapKeyKubeAPIServer, checker.mapKeyKubeScheduler,
        checker.mapKeyKubeControllerManager, checker.mapKeyKubeProxy]
  · rw [hm]
    rcases hB with e | e | e | e <;> subst e <;>
      simp [GoMap.get?, checker.mapKeyKubeAPIServer, checker.mapKeyKubeScheduler,
        checker.mapKeyKubeControllerManager, checker.mapKeyKubeProxy]

/-- C10: the collection on a pod list returns a matrix as soon as every
argument containing `--feature-gates` also holds a `=`; and whenever it returns
a matrix, then for every component `B` the matrix holds one record per pod of
the bucket of `B`, in order, each with the name of its pod and one container
record per container, and a container none of whose arguments contains
`--feature-gates` has, at its position, the record carrying its name and an
empty `FeatureGates` list. -/
theorem collect_keeps_flagless_container (pods : PodList) (B : String)
    (hB : B ∈ [checker.mapKeyKubeAPIServer, checker.mapKeyKubeScheduler,
      checker.mapKeyKubeControllerManager, checker.mapKeyKubeProxy]) :
    ((∀ p ∈ pods.Items, ∀ c ∈ p.Spec.Containers, ∀ a ∈ c.Args,
        strings.Contains a "--feature-gates" = true → '=' ∈ a.data) →
      ∃ m, checker.CollectRunningClusterFeatureGates (.ok pods) = .ok (m, none)) ∧
    ∀ m err, checker.CollectRunningClusterFeatureGates (.ok pods) = .ok (m, err) →
      ∃ bucket records,
        GoMap.get? (checker.constructSystemComponentPodsMap pods) B = some bucket ∧
        GoMap.get? m B = some records ∧
        records.length = bucket.length ∧
        ∀ i p, bucket.get? i = some p →
          ∃ r, records.get? i = some r ∧ r.Name = p.Name ∧
            r.Containers.length = p.Spec.Containers.length ∧
            ∀ j c, p.Spec.Containers.get? j = some c →
              (∀ a ∈ c.Args, strings.Contains a "--feature-gates" = false) →
              r.Containers.get? j = some { Name := c.Name, FeatureGates := [] } := by
  refine ⟨checker.Collect_complete pods, ?_⟩
  intro m err h
  obtain ⟨hbucket, hrecords⟩ := checker.Collect_ok_bucket pods m err h B hB
  refine ⟨podsNamed B pods.Items, (podsNamed B pods.Items).map emptyGatesPod,
    hbucket, hrecords, List.length_map _ _, ?_⟩
  intro i p hp
  refine ⟨emptyGatesPod p, ?_, rfl, ?_, ?_⟩
  · rw [List.get?_eq_getElem?, List.getElem?_map, ← List.get?_eq_getElem?, hp]; rfl
  · simp [emptyGatesPod]
  · intro j c hc _
    simp only [emptyGatesPod]
    rw [List.get?_eq_getElem?, List.getElem?_map, ← List.get?_eq_getElem?, hc]; rfl

/-- C10, at the end-to-end scenario: the collection returns `scenarioMatrix`;
the scheduler container has the arguments `["--v=2"]`, and the matrix holds its
record, named `kube-scheduler`, with an empty list. -/
theorem collect_keeps_flagless_container_witness :
    checker.CollectRunningClusterFeatureGates (.ok scenarioPods) = .ok (scenarioMatrix, none) ∧
    (∀ a ∈ ["--v=2"], strings.Contains a "--feature-gates" = false) ∧
    GoMap.get? scenarioMatrix "kube-scheduler" =
      some [
        { Name := "kube-scheduler-1"
          Containers := [{ Name := "kube-scheduler", FeatureGates := [] }] }] ∧
    ∃ bucket records,
      GoMap.get? (checker.constructSystemComponentPodsMap scenarioPods) "kube-scheduler" =
        some bucket ∧
      GoMap.get? scenarioMatrix "kube-scheduler" = some records ∧
      records.length = bucket.length ∧
      ∀ i p, bucket.get? i = some p →
        ∃ r, records.get? i = some r ∧ r.Name = p.Name ∧
          r.Containers.length = p.Spec.Containers.length ∧
          ∀ j c, p.Spec.Containers.get? j = some c →
            (∀ a ∈ c.Args, strings.Contains a "--feature-gates" = false) →
            r.Containers.get? j = some { Name := c.Name, FeatureGates := [] } :=
  ⟨rfl, by decide, rfl,
    (collect_keeps_flagless_container scenarioPods "kube-scheduler" (by decide)).2
      scenarioMatrix none rfl⟩

/-- C2: on the end-to-end scenario, whose API server container has the
argument `--feature-gates=Foo=true,Bar=false`, the collection returns for
`kube-apiserver` one pod with one container whose `FeatureGates` list is
empty: neither `Foo` nor `Bar` is recorded. -/
theorem collect_scenario_records_no_gate :
    checker.CollectRunningClusterFeatureGates (.ok scenarioPods) = .ok (scenarioMatrix, none) ∧
    GoMap.get? scenarioMatrix "kube-apiserver" =
      some [
        { Name := "kube-apiserver-1"
          Containers := [{ Name := "kube-apiserver", FeatureGates := [] }] }] :=
  ⟨rfl, rfl⟩

/-! ## Agreement of the two variants, keys, order and idempotence -/

/-- C19: the extractor and the parser of `main.go` return, on every input, the
result of those of the checker package, and for every pod list the buckets the
two-identifier classifier of `main.go` stores under `kube-apiserver` and
`kube-scheduler` are the buckets the four-identifier classifier stores under
them. -/
theorem variants_agree :
    (∀ args, main.findFeatureGatesFlagInContainerArgs args =
      checker.findFeatureGatesFlagInContainerArgs args) ∧
    (∀ raw, main.parseFeatureGatesValue raw = checker.parseFeatureGatesValue raw) ∧
    (∀ pods,
      GoMap.get? (main.constructSystemComponentPodsMap pods) main.mapKeyKubeAPIServer =
        GoMap.get? (checker.constructSystemComponentPodsMap pods)
          checker.mapKeyKubeAPIServer ∧
      GoMap.get? (main.constructSystemComponentPodsMap pods) main.mapKeyKubeScheduler =
        GoMap.get? (checker.constructSystemComponentPodsMap pods)
          checker.mapKeyKubeScheduler) ∧
    main.mapKeyKubeAPIServer = checker.mapKeyKubeAPIServer ∧
    main.mapKeyKubeScheduler = checker.mapKeyKubeScheduler := by
  refine ⟨main.find_eq, main.parse_eq, ?_, rfl, rfl⟩
  intro pods
  rw [main.constructSystemComponentPodsMap_two_keys, checker.constructSystemComponentPodsMap_eq]
  constructor <;>
    simp [GoMap.get?, main.mapKeyKubeAPIServer, main.mapKeyKubeScheduler,
      checker.mapKeyKubeAPIServer, checker.mapKeyKubeScheduler]

/-- C13: on the empty pod list the collection returns no error and the matrix
whose keys are the four component identifiers, each with the empty pod list. -/
theorem collect_empty_cluster :
    ∃ m, checker.CollectRunningClusterFeatureGates (.ok { Items := [] }) = .ok (m, none) ∧
      GoMap.keys m = [checker.mapKeyKubeAPIServer, checker.mapKeyKubeScheduler,
        checker.mapKeyKubeControllerManager, checker.mapKeyKubeProxy] ∧
      GoMap.get? m checker.mapKeyKubeAPIServer = some [] ∧
      GoMap.get? m checker.mapKeyKubeScheduler = some [] ∧
      GoMap.get? m checker.mapKeyKubeControllerManager = some [] ∧
      GoMap.get? m checker.mapKeyKubeProxy = some [] :=
  ⟨[("kube-apiserver", []), ("kube-scheduler", []), ("kube-controller-manager", []),
      ("kube-proxy", [])], rfl, rfl, rfl, rfl, rfl, rfl⟩

/-- C17: on the space-separated form `["--feature-gates", "A=true"]` the
extractor of either file does not return: the split of `--feature-gates` on `=`
has one element and reading element 1 panics with
`index out of range [1] with length 1`. -/
theorem findFeatureGatesFlag_space_separated_panics :
    strings.Split "--feature-gates" "=" = ["--feature-gates"] ∧
    checker.findFeatureGatesFlagInContainerArgs ["--feature-gates", "A=true"] =
      .error (.indexOutOfRange 1 1) ∧
    main.findFeatureGatesFlagInContainerArgs ["--feature-gates", "A=true"] =
      .error (.indexOutOfRange 1 1) :=
  ⟨rfl, rfl, rfl⟩

theorem checker.get?_constructSystemComponentPodsMap (pods : PodList) (B : String)
    (hB : B ∈ [checker.mapKeyKubeAPIServer, checker.mapKeyKubeScheduler,
      checker.mapKeyKubeControllerManager, checker.mapKeyKubeProxy]) :
    GoMap.get? (checker.constructSystemComponentPodsMap pods) B =
      some (podsNamed B pods.Items) := by
  rw [checker.constructSystemComponentPodsMap_eq]
  simp only [List.mem_cons, List.mem_singleton, List.not_mem_nil, or_false] at hB
  rcases hB with e | e | e | e <;> subst e <;>
    simp [GoMap.get?, checker.mapKeyKubeAPIServer, checker.mapKeyKubeScheduler,
      checker.mapKeyKubeControllerManager, checker.mapKeyKubeProxy]

theorem main.get?_constructSystemComponentPodsMap_two_keys (pods : PodList) (B : String)
    (hB : B ∈ [main.mapKeyKubeAPIServer, main.mapKeyKubeScheduler]) :
    GoMap.get? (main.constructSystemComponentPodsMap pods) B =
      some (podsNamed B pods.Items) := by
  rw [main.constructSystemComponentPodsMap_two_keys]
  simp only [List.mem_cons, List.mem_singleton, List.not_mem_nil, or_false] at hB
  rcases hB with e | e <;> subst e <;>
    simp [GoMap.get?, main.mapKeyKubeAPIServer, main.mapKeyKubeScheduler]

theorem podsNamed_idem (B : String) (ps : List Pod) :
    podsNamed B (podsNamed B ps) = podsNamed B ps := by
  unfold podsNamed
  rw [List.filter_filter]
  simp

theorem podsNamed_eq_nil (B : String) (ps : List Pod)
    (h : ∀ p ∈ ps, strings.Contains p.Name B = false) : podsNamed B ps = [] := by
  unfold podsNamed
  rw [List.filter_eq_nil_iff]
  intro p hp
  simp [h p hp]

/-- C16: for every pod list and every configured identifier `B` (four in the
checker package, two in `main.go`), running the classifier again on the pods
of the bucket of `B` stores under `B` that same bucket, pod for pod and in the
same order. -/
theorem classification_idempotent (pods : PodList) (B : String) :
    (B ∈ [checker.mapKeyKubeAPIServer, checker.mapKeyKubeScheduler,
        checker.mapKeyKubeControllerManager, checker.mapKeyKubeProxy] →
      ∃ bucket, GoMap.get? (checker.constructSystemComponentPodsMap pods) B = some bucket ∧
        GoMap.get? (checker.constructSystemComponentPodsMap { Items := bucket }) B =
          some bucket) ∧
    (B ∈ [main.mapKeyKubeAPIServer, main.mapKeyKubeScheduler] →
      ∃ bucket, GoMap.get? (main.constructSystemComponentPodsMap pods) B = some bucket ∧
        GoMap.get? (main.constructSystemComponentPodsMap { Items := bucket }) B =
          some bucket) := by
  constructor
  · intro hB
    refine ⟨podsNamed B pods.Items, checker.get?_constructSystemComponentPodsMap pods B hB, ?_⟩
    rw [checker.get?_constructSystemComponentPodsMap _ B hB, podsNamed_idem]
  · intro hB
    refine ⟨podsNamed B pods.Items,
      main.get?_constructSystemComponentPodsMap_two_keys pods B hB, ?_⟩
    rw [main.get?_constructSystemComponentPodsMap_two_keys _ B hB, podsNamed_idem]

/-- C16, at the pod list with an overlapping name and the identifier
`kube-proxy` (checker package) and `kube-scheduler` (`main.go`). -/
theorem classification_idempotent_witness :
    ("kube-proxy" ∈ [checker.mapKeyKubeAPIServer, checker.mapKeyKubeScheduler,
        checker.mapKeyKubeControllerManager, checker.mapKeyKubeProxy]) ∧
    (∃ bucket,
      GoMap.get? (checker.constructSystemComponentPodsMap overlapPods) "kube-proxy" =
        some bucket ∧
      GoMap.get? (checker.constructSystemComponentPodsMap { Items := bucket }) "kube-proxy" =
        some bucket) ∧
    (∃ bucket,
      GoMap.get? (main.constructSystemComponentPodsMap overlapPods) "kube-scheduler" =
        some bucket ∧
      GoMap.get? (main.constructSystemComponentPodsMap { Items := bucket }) "kube-scheduler" =
        some bucket) :=
  ⟨by decide,
    (classification_idempotent overlapPods "kube-proxy").1 (by decide),
    (classification_idempotent overlapPods "kube-scheduler").2 (by decide)⟩

/-- C12: for every pod list the keys of the map `constructSystemComponentPodsMap`
returns are distinct and are exactly the configured identifiers (four in the
checker package, two in `main.go`), and an identifier that no pod name
contains is stored with the empty list. -/
theorem constructSystemComponentPodsMap_keys (pods : PodList) (B : String) :
    ((GoMap.keys (checker.constructSystemComponentPodsMap pods)).Nodup ∧
      ∀ k, k ∈ GoMap.keys (checker.constructSystemComponentPodsMap pods) ↔
        k ∈ [checker.mapKeyKubeAPIServer, checker.mapKeyKubeScheduler,
          checker.mapKeyKubeControllerManager, checker.mapKeyKubeProxy]) ∧
    ((GoMap.keys (main.constructSystemComponentPodsMap pods)).Nodup ∧
      ∀ k, k ∈ GoMap.keys (main.constructSystemComponentPodsMap pods) ↔
        k ∈ [main.mapKeyKubeAPIServer, main.mapKeyKubeScheduler]) ∧
    (B ∈ [checker.mapKeyKubeAPIServer, checker.mapKeyKubeScheduler,
        checker.mapKeyKubeControllerManager, checker.mapKeyKubeProxy] →
      (∀ p ∈ pods.Items, strings.Contains p.Name B = false) →
      GoMap.get? (checker.constructSystemComponentPodsMap pods) B = some []) ∧
    (B ∈ [main.mapKeyKubeAPIServer, main.mapKeyKubeScheduler] →
      (∀ p ∈ pods.Items, strings.Contains p.Name B = false) →
      GoMap.get? (main.constructSystemComponentPodsMap pods) B = some []) := by
  refine ⟨⟨?_, ?_⟩, ⟨?_, ?_⟩, ?_, ?_⟩
  · rw [checker.constructSystemComponentPodsMap_eq]
    simp [GoMap.keys, checker.mapKeyKubeAPIServer, checker.mapKeyKubeScheduler,
      checker.mapKeyKubeControllerManager, checker.mapKeyKubeProxy]
  · intro k
    rw [checker.constructSystemComponentPodsMap_eq]
    simp [GoMap.keys]
  · rw [main.constructSystemComponentPodsMap_two_keys]
    simp [GoMap.keys, main.mapKeyKubeAPIServer, main.mapKeyKubeScheduler]
  · intro k
    rw [main.constructSystemComponentPodsMap_two_keys]
    simp [GoMap.keys]
  · intro hB hnone
    rw [checker.get?_constructSystemComponentPodsMap pods B hB, podsNamed_eq_nil B _ hnone]
  · intro hB hnone
    rw [main.get?_constructSystemComponentPodsMap_two_keys pods B hB,
      podsNamed_eq_nil B _ hnone]

/-- C12, at the end-to-end scenario: no pod name contains `kube-proxy`, which
is stored with the empty list in the checker package; and at the empty pod
list `kube-scheduler` is stored with the empty list in `main.go`. -/
theorem constructSystemComponentPodsMap_keys_witness :
    (∀ p ∈ scenarioPods.Items, strings.Contains p.Name "kube-proxy" = false) ∧
    GoMap.get? (checker.constructSystemComponentPodsMap scenarioPods) "kube-proxy" =
      some [] ∧
    GoMap.get? (main.constructSystemComponentPodsMap { Items := [] }) "kube-scheduler" =
      some [] :=
  ⟨by decide,
    (constructSystemComponentPodsMap_keys scenarioPods "kube-proxy").2.2.1
      (by decide) (by decide),
    (constructSystemComponentPodsMap_keys { Items := [] } "kube-scheduler").2.2.2
      (by decide) (by simp)⟩

theorem emptyGatesPod_names (ps : List Pod) :
    (ps.map emptyGatesPod).map (fun r => r.Name) = ps.map (fun p => p.Name) ∧
    (ps.map emptyGatesPod).map (fun r => r.Containers.map fun c => c.Name) =
      ps.map (fun p => p.Spec.Containers.map fun c => c.Name) := by
  constructor
  · rw [List.map_map]; rfl
  · rw [List.map_map]
    apply List.map_congr_left
    intro p _
    simp [emptyGatesPod, List.map_map, Function.comp_def]

/-- C11: when the collection on a pod list returns a matrix, then for every
component the names of the pod records stored under it are, in order, the
names of the pods of the bucket of the classifier, and the container names of
each pod record are, in order, the container names of its pod. -/
theorem collect_preserves_discovery_order (pods : PodList)
    (m : checker.SystemComponentFeatureGateMartix) (err : Option String)
    (h : checker.CollectRunningClusterFeatureGates (.ok pods) = .ok (m, err))
    (B : String)
    (hB : B ∈ [checker.mapKeyKubeAPIServer, checker.mapKeyKubeScheduler,
      checker.mapKeyKubeControllerManager, checker.mapKeyKubeProxy]) :
    ∃ bucket records,
      GoMap.get? (checker.constructSystemComponentPodsMap pods) B = some bucket ∧
      GoMap.get? m B = some records ∧
      records.map (fun r => r.Name) = bucket.map (fun p => p.Name) ∧
      records.map (fun r => r.Containers.map fun c => c.Name) =
        bucket.map (fun p => p.Spec.Containers.map fun c => c.Name) := by
  obtain ⟨hbucket, hrecords⟩ := checker.Collect_ok_bucket pods m err h B hB
  exact ⟨podsNamed B pods.Items, (podsNamed B pods.Items).map emptyGatesPod,
    hbucket, hrecords, (emptyGatesPod_names _).1, (emptyGatesPod_names _).2⟩

/-- C11, at the pod list whose API server pod has the containers
`kube-apiserver` and `sidecar`, in that order. -/
theorem collect_preserves_discovery_order_witness :
    checker.CollectRunningClusterFeatureGates (.ok malformedPods) =
      .ok (malformedMatrix, none) ∧
    (malformedMatrix.map fun e => (e.1, e.2.map fun r => (r.Name, r.Containers.map fun c => c.Name))) =
      [("kube-apiserver", [("kube-apiserver-1", ["kube-apiserver", "sidecar"])]),
        ("kube-scheduler", [("kube-scheduler-1", ["kube-scheduler"])]),
        ("kube-controller-manager", []), ("kube-proxy", [])] ∧
    ∃ bucket records,
      GoMap.get? (checker.constructSystemComponentPodsMap malformedPods) "kube-apiserver" =
        some bucket ∧
      GoMap.get? malformedMatrix "kube-apiserver" = some records ∧
      records.map (fun r => r.Name) = bucket.map (fun p => p.Name) ∧
      records.map (fun r => r.Containers.map fun c => c.Name) =
        bucket.map (fun p => p.Spec.Containers.map fun c => c.Name) :=
  ⟨rfl, rfl,
    collect_preserves_discovery_order malformedPods malformedMatrix none rfl
      "kube-apiserver" (by decide)⟩

/-- On every pod list in which each argument containing `--feature-gates` has
a `=` (as `--feature-gates=<v>` has, whatever the tokens of `v`), the
collection completes without error and returns a matrix that holds, for every
component, one record per pod of the bucket, in order, with the name of the
pod and the names of all its containers. -/
theorem collect_completes_with_malformed_token (pods : PodList)
    (h : ∀ p ∈ pods.Items, ∀ c ∈ p.Spec.Containers, ∀ a ∈ c.Args,
      strings.Contains a "--feature-gates" = true → '=' ∈ a.data) :
    ∃ m, checker.CollectRunningClusterFeatureGates (.ok pods) = .ok (m, none) ∧
      ∀ B, B ∈ [checker.mapKeyKubeAPIServer, checker.mapKeyKubeScheduler,
          checker.mapKeyKubeControllerManager, checker.mapKeyKubeProxy] →
        ∃ bucket records,
          GoMap.get? (checker.constructSystemComponentPodsMap pods) B = some bucket ∧
          GoMap.get? m B = some records ∧
          records.length = bucket.length ∧
          ∀ i p, bucket.get? i = some p →
            ∃ r, records.get? i = some r ∧ r.Name = p.Name ∧
              r.Containers.map (fun c => c.Name) = p.Spec.Containers.map (fun c => c.Name) := by
  obtain ⟨m, hm⟩ := checker.Collect_complete pods h
  refine ⟨m, hm, ?_⟩
  intro B hB
  obtain ⟨hbucket, hrecords⟩ := checker.Collect_ok_bucket pods m none hm B hB
  refine ⟨podsNamed B pods.Items, (podsNamed B pods.Items).map emptyGatesPod,
    hbucket, hrecords, List.length_map _ _, ?_⟩
  intro i p hp
  refine ⟨emptyGatesPod p, ?_, rfl, ?_⟩
  · rw [List.get?_eq_getElem?, List.getElem?_map, ← List.get?_eq_getElem?, hp]; rfl
  · simp [emptyGatesPod, List.map_map, Function.comp_def]

/-- The pod list whose API server container has the argument
`--feature-gates=A=true,Bfalse`: the parser alone panics on that value, and the
collection returns `malformedMatrix`, with a record for each of the three
containers. -/
theorem collect_completes_with_malformed_token_witness :
    checker.parseFeatureGatesValue "A=true,Bfalse" = .error (.indexOutOfRange 1 1) ∧
    (∀ p ∈ malformedPods.Items, ∀ c ∈ p.Spec.Containers, ∀ a ∈ c.Args,
      strings.Contains a "--feature-gates" = true → '=' ∈ a.data) ∧
    checker.CollectRunningClusterFeatureGates (.ok malformedPods) =
      .ok (malformedMatrix, none) ∧
    ∃ m, checker.CollectRunningClusterFeatureGates (.ok malformedPods) = .ok (m, none) ∧
      ∀ B, B ∈ [checker.mapKeyKubeAPIServer, checker.mapKeyKubeScheduler,
          checker.mapKeyKubeControllerManager, checker.mapKeyKubeProxy] →
        ∃ bucket records,
          GoMap.get? (checker.constructSystemComponentPodsMap malformedPods) B =
            some bucket ∧
          GoMap.get? m B = some records ∧
          records.length = bucket.length ∧
          ∀ i p, bucket.get? i = some p →
            ∃ r, records.get? i = some r ∧ r.Name = p.Name ∧
              r.Containers.map (fun c => c.Name) = p.Spec.Containers.map (fun c => c.Name) :=
  ⟨rfl, by decide, rfl, collect_completes_with_malformed_token malformedPods (by decide)⟩

/-- The found-flag returned by the extractor is false. -/
theorem checker.find_found_false (args : List String) (v : String) (b : Bool)
    (h : checker.findFeatureGatesFlagInContainerArgs args = .ok (v, b)) : b = false := by
  rw [checker.find_eq_findLoop] at h
  cases hf : checker.findLoop args "" with
  | error e => rw [hf] at h; cases h
  | ok value =>
    rw [hf] at h
    simp only [Except.ok.injEq, Prod.mk.injEq] at h
    exact h.2.symm

theorem checker.containersLoopWith_eq (parse : String → Except Panic (GoMap String))
    (cs : List Container) (idx : Nat) (containers : List checker.SystemComponentContainer) :
    checker.containersLoopWith parse cs idx containers =
      checker.containersLoop cs idx containers := by
  induction cs generalizing idx containers with
  | nil => rfl
  | cons c rest ih =>
    rw [checker.containersLoopWith, checker.containersLoop]
    cases sliceIndex containers idx with
    | error e => rfl
    | ok slot =>
      simp only
      cases sliceAssign containers idx { slot with Name := c.Name } with
      | error e => rfl
      | ok containers2 =>
        simp only [checker.find_eq_findLoop]
        cases checker.findLoop c.Args "" with
        | error e => rfl
        | ok value => simp [ih]

theorem checker.podsLoopWith_eq (parse : String → Except Panic (GoMap String))
    (ps : List Pod) (idx : Nat) (podConfigs : List checker.SystemComponentPod) :
    checker.podsLoopWith parse ps idx podConfigs = checker.podsLoop ps idx podConfigs := by
  induction ps generalizing idx podConfigs with
  | nil => rfl
  | cons p rest ih =>
    rw [checker.podsLoopWith, checker.podsLoop]
    simp only [checker.containersLoopWith_eq, ih]

theorem checker.componentsLoopWith_eq (parse : String → Except Panic (GoMap String))
    (buckets : List (String × List Pod)) (m : checker.SystemComponentFeatureGateMartix) :
    checker.componentsLoopWith parse buckets m = checker.componentsLoop buckets m := by
  induction buckets generalizing m with
  | nil => rfl
  | cons b rest ih =>
    obtain ⟨B, ps⟩ := b
    rw [checker.componentsLoopWith, checker.componentsLoop]
    simp only [checker.podsLoopWith_eq, ih]

theorem checker.CollectWith_eq (parse : String → Except Panic (GoMap String))
    (listed : Except String PodList) :
    checker.CollectWith parse listed = checker.CollectRunningClusterFeatureGates listed := by
  unfold checker.CollectWith checker.CollectRunningClusterFeatureGates
  simp only [checker.componentsLoopWith_eq]

theorem GoMap.mem_of_get? {V : Type} (m : GoMap V) (k : String) (v : V)
    (h : GoMap.get? m k = some v) : (k, v) ∈ m := by
  induction m with
  | nil => simp [GoMap.get?] at h
  | cons e rest ih =>
    obtain ⟨k', v'⟩ := e
    by_cases hk : k' = k
    · subst hk
      simp only [GoMap.get?, if_true, Option.some.injEq] at h
      subst h
      exact List.mem_cons_self _ _
    · simp only [GoMap.get?, hk, if_false] at h
      exact List.mem_cons_of_mem _ (ih h)

/-- C18: the found-flag the extractor returns is false on every argument list;
so in the matrix of every collection that completes each container record has
an empty `FeatureGates` list, and the collection returns the same result
whatever function stands at the call of `parseFeatureGatesValue`, the call
being never made. -/
theorem found_flag_never_set :
    (∀ args v b, checker.findFeatureGatesFlagInContainerArgs args = .ok (v, b) →
      b = false) ∧
    (∀ pods m err,
      checker.CollectRunningClusterFeatureGates (.ok pods) = .ok (m, err) →
      ∀ B records, GoMap.get? m B = some records →
        ∀ r ∈ records, ∀ c ∈ r.Containers, c.FeatureGates = []) ∧
    (∀ parse listed,
      checker.CollectWith parse listed =
        checker.CollectRunningClusterFeatureGates listed) := by
  refine ⟨checker.find_found_false, ?_, checker.CollectWith_eq⟩
  intro pods m err h B records hget r hr c hc
  obtain ⟨_, hm⟩ := checker.Collect_ok pods m err h
  have hmem := GoMap.mem_of_get? m B records hget
  rw [hm] at hmem
  simp only [List.mem_cons, List.mem_singleton, List.not_mem_nil, or_false,
    Prod.mk.injEq] at hmem
  have hrec : ∃ ps : List Pod, records = ps.map emptyGatesPod := by
    rcases hmem with ⟨_, e⟩ | ⟨_, e⟩ | ⟨_, e⟩ | ⟨_, e⟩ <;> exact ⟨_, e⟩
  obtain ⟨ps, rfl⟩ := hrec
  simp only [List.mem_map] at hr
  obtain ⟨p, _, rfl⟩ := hr
  simp only [emptyGatesPod, List.mem_map] at hc
  obtain ⟨c0, _, rfl⟩ := hc
  rfl

/-- C18, at the end-to-end scenario, whose API server container has the flag
`--feature-gates=Foo=true,Bar=false`: the extractor returns the found-flag
`false`, the container record has no feature gate, and a parser that always
panics gives the same matrix. -/
theorem found_flag_never_set_witness :
    checker.findFeatureGatesFlagInContainerArgs ["--feature-gates=Foo=true,Bar=false"] =
      .ok ("Foo", false) ∧
    (false = false) ∧
    (∀ r ∈ [({ Name := "kube-apiserver-1", Containers := [{ Name := "kube-apiserver", FeatureGates := [] }] } : checker.SystemComponentPod)],
      ∀ c ∈ r.Containers, c.FeatureGates = []) ∧
    checker.CollectWith (fun _ => .error (.indexOutOfRange 0 0)) (.ok scenarioPods) =
      .ok (scenarioMatrix, none) :=
  ⟨rfl,
    found_flag_never_set.1 ["--feature-gates=Foo=true,Bar=false"] "Foo" false rfl,
    found_flag_never_set.2.1 scenarioPods scenarioMatrix none rfl "kube-apiserver" _ rfl,
    (found_flag_never_set.2.2 _ _).trans rfl⟩

/-- The first piece of the split of a token that does not begin with `=`, when
the token has a second piece, is not empty. -/
theorem strings.Split_eq_head_ne_empty (t k v : String)
    (hhead : t.data.head? ≠ some '=')
    (h0 : sliceIndex (strings.Split t "=") 0 = .ok k)
    (h1 : sliceIndex (strings.Split t "=") 1 = .ok v) : k ≠ "" := by
  rw [strings.Split_eq] at h0 h1
  cases hd : t.data with
  | nil =>
    rw [hd] at h1
    simp [sliceIndex, List.splitOn, List.splitOnP_nil] at h1
  | cons c cs =>
    rw [hd] at hhead h0
    have hc : ¬ ((c == '=') = true) := by
      intro e
      apply hhead
      simp [beq_iff_eq.mp e]
    rw [List.splitOn, List.splitOnP_cons, if_neg hc] at h0
    cases hs : List.splitOnP (fun x => x == '=') cs with
    | nil => exact absurd hs (List.splitOnP_ne_nil _ _)
    | cons a r =>
      rw [hs] at h0
      simp only [List.modifyHead_cons, List.map_cons, sliceIndex, List.get?_cons_zero,
        Except.ok.injEq] at h0
      intro e
      rw [e] at h0
      have := congrArg String.data h0
      simp at this

/-- Every key the parser loop adds is the first piece of one of the tokens,
and that token has a second piece. -/
theorem checker.parseLoop_keys (tokens : List String) (m0 m : GoMap String)
    (h : checker.parseLoop tokens m0 = .ok m) (k : String) (hk : k ∈ GoMap.keys m) :
    k ∈ GoMap.keys m0 ∨ ∃ t ∈ tokens, ∃ v,
      sliceIndex (strings.Split t "=") 0 = .ok k ∧
      sliceIndex (strings.Split t "=") 1 = .ok v := by
  induction tokens generalizing m0 with
  | nil =>
    simp only [checker.parseLoop, Except.ok.injEq] at h
    subst h
    exact Or.inl hk
  | cons t rest ih =>
    rw [checker.parseLoop] at h
    cases h0 : sliceIndex (strings.Split t "=") 0 with
    | error e => simp only [h0] at h; cases h
    | ok name =>
      cases h1 : sliceIndex (strings.Split t "=") 1 with
      | error e => simp only [h0, h1] at h; cases h
      | ok value =>
        simp only [h0, h1] at h
        rcases ih _ h with hin | ⟨t2, ht2, v, hv⟩
        · rcases (GoMap.mem_keys_set m0 name k value).mp hin with e | e
          · subst e
            exact Or.inr ⟨t, List.mem_cons_self _ _, value, h0, h1⟩
          · exact Or.inl e
        · exact Or.inr ⟨t2, List.mem_cons_of_mem _ ht2, v, hv⟩

/-- C15, as stated, fails: on `=true` the parser of either file returns the
map with the single key `""`, so not every key of a returned map is
non-empty. -/
theorem parseFeatureGatesValue_empty_key :
    checker.parseFeatureGatesValue "=true" = .ok [("", "true")] ∧
    main.parseFeatureGatesValue "=true" = .ok [("", "true")] ∧
    ¬ (∀ raw m, checker.parseFeatureGatesValue raw = .ok m →
      ∀ k ∈ GoMap.keys m, k ≠ "") :=
  ⟨rfl, rfl, fun h => h "=true" [("", "true")] rfl "" (by simp [GoMap.keys]) rfl⟩

/-- The first piece of the split of a token that begins with `=` is the empty
string. -/
theorem strings.Split_eq_head_empty (t : String) (hhead : t.data.head? = some '=') :
    sliceIndex (strings.Split t "=") 0 = .ok "" := by
  rw [strings.Split_eq]
  cases hd : t.data with
  | nil => rw [hd] at hhead; simp at hhead
  | cons c cs =>
    rw [hd] at hhead
    simp only [List.head?_cons, Option.some.injEq] at hhead
    subst hhead
    rw [List.splitOn, List.splitOnP_cons]
    rfl

/-- The parser loop keeps the keys the map already has. -/
theorem checker.parseLoop_keys_mono (tokens : List String) (m0 m : GoMap String)
    (h : checker.parseLoop tokens m0 = .ok m) (k : String) (hk : k ∈ GoMap.keys m0) :
    k ∈ GoMap.keys m := by
  induction tokens generalizing m0 with
  | nil =>
    simp only [checker.parseLoop, Except.ok.injEq] at h
    subst h
    exact hk
  | cons t rest ih =>
    rw [checker.parseLoop] at h
    cases h0 : sliceIndex (strings.Split t "=") 0 with
    | error e => simp only [h0] at h; cases h
    | ok name =>
      cases h1 : sliceIndex (strings.Split t "=") 1 with
      | error e => simp only [h0, h1] at h; cases h
      | ok value =>
        simp only [h0, h1] at h
        exact ih _ h ((GoMap.mem_keys_set m0 name k value).mpr (Or.inr hk))

/-- The first piece of every token is a key of the map the parser loop
returns. -/
theorem checker.parseLoop_first_piece_mem (tokens : List String) (m0 m : GoMap String)
    (h : checker.parseLoop tokens m0 = .ok m) (t : String) (ht : t ∈ tokens)
    (k : String) (hk : sliceIndex (strings.Split t "=") 0 = .ok k) :
    k ∈ GoMap.keys m := by
  induction tokens generalizing m0 with
  | nil => simp at ht
  | cons t0 rest ih =>
    rw [checker.parseLoop] at h
    cases h0 : sliceIndex (strings.Split t0 "=") 0 with
    | error e => simp only [h0] at h; cases h
    | ok name =>
      cases h1 : sliceIndex (strings.Split t0 "=") 1 with
      | error e => simp only [h0, h1] at h; cases h
      | ok value =>
        simp only [h0, h1] at h
        simp only [List.mem_cons] at ht
        rcases ht with e | e
        · subst e
          rw [h0] at hk
          simp only [Except.ok.injEq] at hk
          subst hk
          exact checker.parseLoop_keys_mono rest _ m h name
            ((GoMap.mem_keys_set m0 name name value).mpr (Or.inl rfl))
        · exact ih _ h e

/-- C15, amended: for every raw value on which `parseFeatureGatesValue` (of
either file) returns a map: if none of the comma-separated tokens begins with
`=`, every key of that map is a non-empty string; and if some token begins
with `=`, the empty string is a key of that map. -/
theorem parseFeatureGatesValue_keys_nonempty (raw : String) (m : GoMap String)
    (h : checker.parseFeatureGatesValue raw = .ok m) :
    main.parseFeatureGatesValue raw = .ok m ∧
    ((∀ t ∈ strings.Split raw ",", t.data.head? ≠ some '=') →
      ∀ k ∈ GoMap.keys m, k ≠ "") ∧
    ((∃ t ∈ strings.Split raw ",", t.data.head? = some '=') →
      "" ∈ GoMap.keys m) := by
  refine ⟨(main.parse_eq raw).trans h, ?_, ?_⟩
  · intro hno k hk
    rcases checker.parseLoop_keys _ [] m h k hk with hin | ⟨t, ht, v, h0, h1⟩
    · simp [GoMap.keys] at hin
    · exact strings.Split_eq_head_ne_empty t k v (hno t ht) h0 h1
  · rintro ⟨t, ht, hhead⟩
    exact checker.parseLoop_first_piece_mem _ [] m h t ht ""
      (strings.Split_eq_head_empty t hhead)

/-- C15 amended, at `A=true,B=false`, where no token begins with `=` and the
keys `A` and `B` are non-empty, and at `A=true,=x`, whose second token begins
with `=` and is stored under the empty key. -/
theorem parseFeatureGatesValue_keys_nonempty_witness :
    (checker.parseFeatureGatesValue "A=true,B=false" = .ok [("A", "true"), ("B", "false")] ∧
      (∀ t ∈ strings.Split "A=true,B=false" ",", t.data.head? ≠ some '=') ∧
      ∀ k ∈ GoMap.keys [("A", "true"), ("B", "false")], k ≠ "") ∧
    (checker.parseFeatureGatesValue "A=true,=x" = .ok [("A", "true"), ("", "x")] ∧
      (∃ t ∈ strings.Split "A=true,=x" ",", t.data.head? = some '=') ∧
      "" ∈ GoMap.keys [("A", "true"), ("", "x")]) :=
  ⟨⟨rfl, by decide,
      (parseFeatureGatesValue_keys_nonempty "A=true,B=false"
        [("A", "true"), ("B", "false")] rfl).2.1 (by decide)⟩,
    ⟨rfl, by decide,
      (parseFeatureGatesValue_keys_nonempty "A=true,=x"
        [("A", "true"), ("", "x")] rfl).2.2 (by decide)⟩⟩

/-- C14: on the pod list whose API server container has the arguments
`--feature-gates=A=true,Bfalse` and `--feature-gates`, the extractor panics
with `index out of range [1] with length 1` at the second argument, and so
does the collection: the run is aborted and no matrix is returned. -/
theorem collect_aborts_beside_malformed_token :
    checker.findFeatureGatesFlagInContainerArgs
      ["--feature-gates=A=true,Bfalse", "--feature-gates"] =
      .error (.indexOutOfRange 1 1) ∧
    checker.CollectRunningClusterFeatureGates (.ok bareFlagPods) =
      .error (.indexOutOfRange 1 1) :=
  ⟨rfl, rfl⟩
